import Mathlib

/-!
# Verification of the usbredirserver event-multiplexing engine

This development shallowly embeds the program in
src/usbredirserver/usbredirserver.c: the transport callbacks
(usbredirserver_read / usbredirserver_write), the device locator
(find_device), the command-line and device-identifier parsing in main,
and — as an explicit step function over a session state with
per-iteration environment oracles — the event loop run_main_loop,
including its wait-mode reconnection retry block.

External collaborators (libusb, usbredirhost) are represented by oracle
inputs in an environment record; each call made by the engine into a
collaborator is recorded in an event trace so that ordering properties
of a single loop iteration can be stated and proved.
-/

namespace Usbredirserver

/-- One observable action performed by the engine during a loop iteration.
Each constructor corresponds to a concrete call site in run_main_loop
(src/usbredirserver/usbredirserver.c): `readGuest` is a call to
usbredirhost_read_guest_data, `writeGuest` to usbredirhost_write_guest_data,
`handleEvents` to libusb_handle_events_timeout, `closeClient` the
close(client_fd); client_fd = -1 performed inside the read/write callbacks
on peer EOF / EPIPE, `engineClose` the close performed by run_main_loop
itself after leaving the loop (lines 322-325), `probe` the liveness probe
libusb_get_configuration (line 276), `disconnectHost` a call to
usbredirhost_disconnect (line 279), `reconEnter` entry into the
"disconnected == 1" reconnection block (line 283), `sleepEv` a sleep
call, `libusbReinit` the libusb_exit/libusb_init pair (lines 288-289),
`findDeviceEv` a call to find_device, `saveCapsEv` / `openHostEv` /
`restoreCapsEv` the calls at lines 307, 308 and 311. -/
inductive Ev where
  | readGuest
  | writeGuest
  | handleEvents
  | closeClient
  | engineClose
  | probe
  | disconnectHost
  | reconEnter
  | sleepEv
  | libusbReinit
  | findDeviceEv
  | saveCapsEv
  | openHostEv
  | restoreCapsEv
  deriving Repr, DecidableEq

/-- The redirection-host instance, reduced to the state the engine
observes across a reconnection: its negotiated capability words.
The usbredirhost component is outside src/, so its capability handling
is modelled from the spec (section 3, "Capability Snapshot"). -/
structure Host where
  caps : List Nat
  deriving Repr, DecidableEq

/-- Modelled from the spec: usbredirhost_save_caps (usbredirhost is outside
src/) copies the host instance's negotiated capability words into the
caller's buffer peer_caps. -/
def usbredirhost_save_caps (h : Host) : List Nat := h.caps

/-- Modelled from the spec: usbredirhost_open (usbredirhost is outside src/)
creates a fresh redirection-host instance whose capability content has not
been negotiated yet. -/
def usbredirhost_open_model : Host := { caps := [] }

/-- Modelled from the spec: usbredirhost_restore_caps_and_send_device_connect
(usbredirhost is outside src/) replays the saved snapshot into the freshly
opened instance so the remote peer does not observe a renegotiation. -/
def usbredirhost_restore_caps_and_send_device_connect (h : Host) (snap : List Nat) : Host :=
  { h with caps := snap }

/-- The mutable process state that run_main_loop reads and writes:
the running flag set by quit_handler, whether client_fd is a live
descriptor (client_fd != -1), the wait_mode option, the local
wait_mode_state variable of run_main_loop, whether a device handle is
held, and the current redirection-host instance. -/
structure St where
  running : Bool
  clientOpen : Bool
  waitMode : Bool
  waitModeState : Nat
  handle : Bool
  host : Host
  deriving Repr, DecidableEq

/-- Outcome of one usbredirhost pump call (read_guest_data or
write_guest_data), as the engine observes it: whether the transport
callback closed client_fd during the call (peer EOF on read, EPIPE on
write), and whether the pump returned a nonzero error. -/
structure PumpOut where
  closes : Bool
  err : Bool
  deriving Repr, DecidableEq

/-- Oracle for one iteration of the inner reconnection retry loop
(lines 287-315): whether a termination signal is delivered during this
retry iteration (quit_handler sets running = 0), whether libusb_init
fails (line 289), whether find_device obtains a handle, and whether the
flush of the device-connect data (line 312) hits a peer close. -/
structure RetryEnv where
  signal : Bool
  initFails : Bool
  deviceFound : Bool
  flushCloses : Bool
  deriving Repr, DecidableEq

/-- Result of select(2) at line 221 as the engine distinguishes it:
interrupted (EINTR), failed with another errno, returned zero ready
descriptors (timeout), or returned with at least one ready descriptor. -/
inductive SelectRes where
  | eintr
  | selErr
  | timeout
  | ready
  deriving Repr, DecidableEq, BEq

/-- Oracle inputs for one iteration of the run_main_loop while loop. -/
structure IterEnv where
  sel : SelectRes
  clientReadable : Bool
  clientWritable : Bool
  usbReady : Bool
  readOut : PumpOut
  writeOut : PumpOut
  disc : Bool
  cfgErr : Bool
  flushCloses : Bool
  drainCloses : Bool
  retries : List RetryEnv
  deriving Repr, DecidableEq

/-- Well-formedness of an iteration oracle: when select reports zero
ready descriptors it has also cleared the fd sets, so no descriptor can
test as ready in that same iteration. -/
def IterEnv.wfb (e : IterEnv) : Bool :=
  match e.sel with
  | SelectRes.timeout => !e.clientReadable && !e.clientWritable && !e.usbReady
  | _ => true

/-- True when the environment contains a peer-initiated close anywhere:
the peer closing or resetting the connection is the only source of a
closeClient transition inside the loop. -/
def IterEnv.peerCloses (e : IterEnv) : Bool :=
  e.readOut.closes || e.writeOut.closes || e.flushCloses || e.drainCloses ||
    e.retries.any (fun r => r.flushCloses)

/-- Result of the inner reconnection retry loop at lines 287-315. -/
inductive RetryRes where
  | clientGone (st : St)
  | found (st : St)
  | procExit (code : Nat)
  deriving Repr, DecidableEq

/-- The inner reconnection retry loop, while (client_fd != -1) at
lines 287-315.  Nothing in the loop body touches client_fd until a
device handle has been obtained, so the loop condition is evaluated on
an unchanged clientOpen; the oracle list supplies one RetryEnv per
executed retry iteration (none = the supplied oracle ran out while the
loop was still retrying, a modelling artifact for an unbounded loop).
On success it performs usbredirhost_save_caps on the old instance,
usbredirhost_open of a new one, restore of the snapshot, and a flush of
the produced outbound data (lines 306-313). -/
def retryLoop (st : St) : List RetryEnv → Option (RetryRes × List Ev)
  | [] => if st.clientOpen then none else some (RetryRes.clientGone st, [])
  | e :: rest =>
    if st.clientOpen = false then some (RetryRes.clientGone st, [])
    else
      let st0 : St := { st with running := st.running && !e.signal }
      if e.initFails then some (RetryRes.procExit 1, [Ev.libusbReinit])
      else if e.deviceFound then
        let snap := usbredirhost_save_caps st0.host
        let newHost := usbredirhost_restore_caps_and_send_device_connect
          usbredirhost_open_model snap
        let st1 : St :=
          { st0 with
            handle := true
            host := newHost
            clientOpen := !e.flushCloses }
        some (RetryRes.found st1,
          [Ev.libusbReinit, Ev.findDeviceEv, Ev.saveCapsEv, Ev.openHostEv,
           Ev.restoreCapsEv, Ev.writeGuest] ++
            (if e.flushCloses then [Ev.closeClient] else []))
      else
        match retryLoop st0 rest with
        | none => none
        | some (r, tr) =>
            some (r, [Ev.libusbReinit, Ev.findDeviceEv, Ev.sleepEv] ++ tr)

/-- Result of one execution of the loop body: proceed to the next guard
check (continue or fall-through), break out of the loop, exit the whole
process (exit(1) at line 291), or the retry oracle ran out. -/
inductive IterOut where
  | next (st : St) (tr : List Ev)
  | brk (st : St) (tr : List Ev)
  | procExit (code : Nat) (tr : List Ev)
  | fuelOut (tr : List Ev)
  deriving Repr, DecidableEq

/-- The trace of collaborator calls made during the iteration. -/
def IterOut.trace : IterOut → List Ev
  | IterOut.next _ tr => tr
  | IterOut.brk _ tr => tr
  | IterOut.procExit _ tr => tr
  | IterOut.fuelOut tr => tr

/-- Lines 237-248: the inbound pump.  If the transport tested readable,
usbredirhost_read_guest_data runs; its callback may close client_fd
(peer EOF), and a nonzero return breaks the loop (line 242).  The
check at line 246 then breaks if client_fd became -1. -/
def readPhase (st : St) (e : IterEnv) : St × List Ev × Bool :=
  let step :=
    if e.clientReadable then
      ({ st with clientOpen := st.clientOpen && !e.readOut.closes },
       Ev.readGuest ::
         (if st.clientOpen && e.readOut.closes then [Ev.closeClient] else []),
       e.readOut.err)
    else (st, ([] : List Ev), false)
  if step.2.2 then (step.1, step.2.1, true)
  else if step.1.clientOpen = false then (step.1, step.2.1, true)
  else (step.1, step.2.1, false)

/-- Lines 250-256: the outbound pump, run when the transport tested
writable; the write callback may close client_fd (EPIPE) and a nonzero
return breaks the loop. -/
def writePhase (st : St) (e : IterEnv) : St × List Ev × Bool :=
  if e.clientWritable then
    ({ st with clientOpen := st.clientOpen && !e.writeOut.closes },
     Ev.writeGuest ::
       (if st.clientOpen && e.writeOut.closes then [Ev.closeClient] else []),
     e.writeOut.err)
  else (st, [], false)

/-- A pump call inside the reconnection block whose return value the
code ignores (lines 284 and 286): only the possible peer close matters. -/
def pumpTr (ev : Ev) (isOpen : Bool) (closes : Bool) : Bool × List Ev :=
  (isOpen && !closes, ev :: (if isOpen && closes then [Ev.closeClient] else []))

/-- Lines 283-317, the body of "if (disconnected == 1)": flush any
pending outbound data (the write may observe EPIPE), sleep, drain any
pending inbound data (the read may observe EOF), then run the inner
retry loop and reset wait_mode_state to 0. -/
def reconBlock (st : St) (e : IterEnv) (tr1 : List Ev) : IterOut :=
  let flush := pumpTr Ev.writeGuest st.clientOpen e.flushCloses
  let drain := pumpTr Ev.readGuest flush.1 e.drainCloses
  let stD : St := { st with clientOpen := drain.1 }
  let trB := tr1 ++ [Ev.reconEnter] ++ flush.2 ++ [Ev.sleepEv] ++ drain.2
  match retryLoop stD e.retries with
  | none => IterOut.fuelOut trB
  | some (RetryRes.clientGone st2, trR) =>
      IterOut.next { st2 with waitModeState := 0 } (trB ++ trR)
  | some (RetryRes.found st2, trR) =>
      IterOut.next { st2 with waitModeState := 0 } (trB ++ trR)
  | some (RetryRes.procExit c, trR) =>
      IterOut.procExit c (trB ++ trR)

/-- Lines 265-319: the wait-mode block.  First branch: the device is seen
connected for the first time (wait_mode_state becomes 1, continue).
Second branch, guarded by wait_mode_state == 1 && client_fd != -1: on a
timed wake the liveness probe libusb_get_configuration runs, and a probe
failure with the protocol layer not yet reporting disconnect forces
usbredirhost_disconnect; if disconnect is (now) observed the
reconnection block reconBlock runs. -/
def waitBlock (st : St) (e : IterEnv) (timedOut : Bool) (tr0 : List Ev) : IterOut :=
  if e.disc = false ∧ st.waitModeState = 0 then
    IterOut.next { st with waitModeState := 1 } tr0
  else if st.waitModeState = 1 ∧ st.clientOpen = true then
    let probed :=
      if timedOut then
        if e.cfgErr && !e.disc then (true, [Ev.probe, Ev.disconnectHost])
        else (e.disc, [Ev.probe])
      else (e.disc, ([] : List Ev))
    if probed.1 then reconBlock st e (tr0 ++ probed.2)
    else IterOut.next st (tr0 ++ probed.2)
  else IterOut.next st tr0

/-- Lines 258-319: after the two pumps, USB event servicing runs once
when any libusb descriptor was ready, and then the wait-mode block. -/
def dispatchTail (st2 : St) (e : IterEnv) (timedOut : Bool) (pre : List Ev) : IterOut :=
  let tr3 := if e.usbReady then [Ev.handleEvents] else []
  if st2.waitMode then waitBlock st2 e timedOut (pre ++ tr3)
  else IterOut.next st2 (pre ++ tr3)

/-- Lines 237-319: everything after select has returned with n >= 0,
with timedOut recording n == 0. -/
def afterSelect (st : St) (e : IterEnv) (timedOut : Bool) (tr0 : List Ev) : IterOut :=
  let r := readPhase st e
  if r.2.2 then IterOut.brk r.1 (tr0 ++ r.2.1)
  else
    let w := writePhase r.1 e
    if w.2.2 then IterOut.brk w.1 (tr0 ++ r.2.1 ++ w.2.1)
    else dispatchTail w.1 e timedOut (tr0 ++ r.2.1 ++ w.2.1)

/-- One execution of the while-loop body of run_main_loop (lines 188-319),
entered after the guard running && client_fd != -1 held.  select EINTR
continues (line 224); another select failure breaks (line 227); zero
ready descriptors run libusb_handle_events_timeout and continue unless
wait_mode is set (lines 230-235). -/
def iterBody (st : St) (e : IterEnv) : IterOut :=
  match e.sel with
  | SelectRes.eintr => IterOut.next st []
  | SelectRes.selErr => IterOut.brk st []
  | SelectRes.timeout =>
      if st.waitMode then afterSelect st e true [Ev.handleEvents]
      else IterOut.next st [Ev.handleEvents]
  | SelectRes.ready => afterSelect st e false []

/-- Lines 321-326: after leaving the loop, run_main_loop closes
client_fd itself if it is still a live descriptor (broken out of the
loop because of an error). -/
def loopEpilogue (st : St) : St × List Ev :=
  if st.clientOpen then ({ st with clientOpen := false }, [Ev.engineClose])
  else (st, [])

/-- Result of a whole run of run_main_loop on a finite oracle list. -/
inductive RunRes where
  | finished (st : St) (tr : List Ev)
  | exited (code : Nat) (tr : List Ev)
  | fuel (tr : List Ev)
  deriving Repr, DecidableEq

/-- The trace of a whole run. -/
def RunRes.trace : RunRes → List Ev
  | RunRes.finished _ tr => tr
  | RunRes.exited _ tr => tr
  | RunRes.fuel tr => tr

/-- run_main_loop (lines 178-327): repeat the loop body while
running && client_fd != -1, then run the epilogue close.  The oracle
list supplies one IterEnv per executed iteration; RunRes.fuel means the
oracle ran out while the loop was still live. -/
def run_main_loop (st : St) : List IterEnv → RunRes
  | [] =>
      if st.running && st.clientOpen then RunRes.fuel []
      else
        let fin := loopEpilogue st
        RunRes.finished fin.1 fin.2
  | e :: rest =>
      if st.running && st.clientOpen then
        match iterBody st e with
        | IterOut.next st2 tr =>
            (match run_main_loop st2 rest with
             | RunRes.finished stf trf => RunRes.finished stf (tr ++ trf)
             | RunRes.exited c trf => RunRes.exited c (tr ++ trf)
             | RunRes.fuel trf => RunRes.fuel (tr ++ trf))
        | IterOut.brk st2 tr =>
            let fin := loopEpilogue st2
            RunRes.finished fin.1 (tr ++ fin.2)
        | IterOut.procExit c tr => RunRes.exited c tr
        | IterOut.fuelOut tr => RunRes.fuel tr
      else
        let fin := loopEpilogue st
        RunRes.finished fin.1 fin.2

/-! ## Transport callbacks (lines 97-132) -/

/-- The errno cases the callbacks distinguish. -/
inductive IOErrno where
  | eagain
  | epipe
  | other
  deriving Repr, DecidableEq

/-- usbredirserver_read (lines 97-113): r is the return of read(2) and
err its errno when r < 0.  Returns the value handed back to the parser
and the new channel-open flag: EAGAIN maps to 0 (would-block), other
errors to -1, r == 0 (peer EOF) closes the channel and returns 0. -/
def usbredirserver_read (clientOpen : Bool) (r : Int) (err : IOErrno) : Int × Bool :=
  if r < 0 then
    if err = IOErrno.eagain then (0, clientOpen)
    else (-1, clientOpen)
  else if r = 0 then (0, false)
  else (r, clientOpen)

/-- usbredirserver_write (lines 115-132): r is the return of write(2)
and err its errno when r < 0.  EAGAIN maps to 0 (would-block); EPIPE
(the peer ended the connection) closes the channel and maps to 0, never
to a negative result; any other failure is -1 (fatal). -/
def usbredirserver_write (clientOpen : Bool) (r : Int) (err : IOErrno) : Int × Bool :=
  if r < 0 then
    if err = IOErrno.eagain then (0, clientOpen)
    else if err = IOErrno.epipe then (0, false)
    else (-1, clientOpen)
  else (r, clientOpen)

/-! ## Device locator (find_device, lines 148-176) -/

/-- What the engine observes about one entry of the libusb device list:
its bus number and device address. -/
structure UsbDevice where
  bus : Int
  addr : Int
  deriving Repr, DecidableEq

/-- Which resolution path find_device took. -/
inductive FindMethod where
  | vidPidOpen
  | busScan
  deriving Repr, DecidableEq

/-- Oracle for one find_device call: the current libusb device list,
whether libusb_open_device_with_vid_pid returns a handle, and whether
libusb_open on a scanned device succeeds. -/
structure UsbEnv where
  devices : List UsbDevice
  vidPidOpenOk : Bool
  openOk : Bool
  deriving Repr, DecidableEq

/-- find_device (lines 148-176): when usbvendor != -1 it opens by
vid:pid and never touches the device list; otherwise it scans the list
for the first entry whose bus number and device address match and opens
that entry.  Returns whether a handle was obtained and which path ran. -/
def find_device (usbvendor usbproduct usbbus usbaddr : Int) (env : UsbEnv) :
    Bool × FindMethod :=
  if usbvendor ≠ -1 then
    (env.vidPidOpenOk, FindMethod.vidPidOpen)
  else
    ((env.devices.any (fun d => d.bus == usbbus && d.addr == usbaddr)) && env.openOk,
     FindMethod.busScan)

/-! ## Argument parsing (main, lines 343-407) -/

/-- The whitespace characters skipped by strtol. -/
def isSpaceC (c : Char) : Bool :=
  c == ' ' || c == '\t' || c == '\n' || c == '\r' || c == '\x0b' || c == '\x0c'

/-- Numeric value of a digit character in the given base, if valid. -/
def digitValB (base : Nat) (c : Char) : Option Nat :=
  let v : Option Nat :=
    if '0' ≤ c ∧ c ≤ '9' then some (c.toNat - 48)
    else if 'a' ≤ c ∧ c ≤ 'f' then some (c.toNat - 87)
    else if 'A' ≤ c ∧ c ≤ 'F' then some (c.toNat - 55)
    else none
  match v with
  | some d => if d < base then some d else none
  | none => none

/-- True when c is a digit of the given base. -/
def isBaseDigit (base : Nat) (c : Char) : Bool :=
  (digitValB base c).isSome

/-- Consume leading base-digits, accumulating their value; returns the
value and the unconsumed remainder. -/
def strtolDigits (base : Nat) (acc : Nat) : List Char → Nat × List Char
  | [] => (acc, [])
  | c :: r =>
    match digitValB base c with
    | some d => strtolDigits base (acc * base + d) r
    | none => (acc, c :: r)

/-- The optional sign at the start of a strtol subject: negative flag
and the remainder. -/
def strtolSign (t : List Char) : Bool × List Char :=
  match t with
  | [] => (false, [])
  | c :: r =>
      if c = '-' then (true, r)
      else if c = '+' then (false, r)
      else (false, c :: r)

/-- The optional 0x / 0X prefix in base 16, consumed only when a hex
digit follows it (otherwise strtol converts just the leading 0). -/
def strtolHexPrefix (t : List Char) : List Char :=
  match t with
  | c0 :: c1 :: r =>
      if c0 = '0' ∧ (c1 = 'x' ∨ c1 = 'X') ∧
         (match r with | c2 :: _ => isBaseDigit 16 c2 | [] => false) = true
      then r else c0 :: c1 :: r
  | t1 => t1

/-- LONG_MAX on the LP64 platforms the server targets (long is 64-bit):
strtol clamps an out-of-range magnitude to LONG_MAX / LONG_MIN and sets
ERANGE (which main never inspects). -/
def LONG_MAX : Int := 2 ^ 63 - 1

/-- LONG_MIN on the same LP64 platforms. -/
def LONG_MIN : Int := -(2 ^ 63)

/-- strtol(3) as the program uses it (bases 10 and 16): skip leading
whitespace, accept an optional sign, in base 16 an optional 0x prefix
when followed by a hex digit, then digits, clamping an overflowing
value to LONG_MAX / LONG_MIN (ERANGE).  Returns the parsed value and
the endptr position (the unconsumed suffix); if no digits were
converted the value is 0 and endptr is the original string. -/
def strtol (s : List Char) (base : Nat) : Int × List Char :=
  let t := s.dropWhile isSpaceC
  let sg := strtolSign t
  let t2 := if base = 16 then strtolHexPrefix sg.2 else sg.2
  match t2 with
  | c :: _ =>
      if isBaseDigit base c then
        let d := strtolDigits base 0 t2
        let v : Int :=
          if sg.1 then
            if LONG_MIN ≤ -(d.1 : Int) then -(d.1 : Int) else LONG_MIN
          else
            if (d.1 : Int) ≤ LONG_MAX then (d.1 : Int) else LONG_MAX
        (v, d.2)
      else (0, s)
  | [] => (0, s)

/-- The conversion main performs when assigning the long returned by
strtol to its int globals (usbbus, usbaddr, usbvendor, usbproduct,
port, verbose, wait_timeout): on the LP64 targets this is the
implementation-defined long-to-int conversion, i.e. two's-complement
wraparound modulo 2^32. -/
def truncToInt (v : Int) : Int :=
  let m := v % (2 ^ 32)
  if m < 2 ^ 31 then m else m - 2 ^ 32

/-- strchr(3): the suffix of s starting at the first occurrence of c,
or none when c does not occur. -/
def strchrSuffix : List Char → Char → Option (List Char)
  | [], _ => none
  | a :: r, c => if a = c then some (a :: r) else strchrSuffix r c

/-- The device identity main ends up with: either (usbbus, usbaddr) with
usbvendor left at -1, or (usbvendor, usbproduct). -/
inductive DeviceId where
  | busAddr (bus addr : Int)
  | vidPid (vid pid : Int)
  deriving Repr, DecidableEq

/-- The device-identifier parsing of main (lines 379-402): if the
argument contains a '-' with at least one character after it, parse
bus (decimal, endptr must sit on '-') and address (decimal, endptr must
sit on the terminator); otherwise require a ':' with at least one
character after it and parse vendor and product in hexadecimal the same
way.  Each strtol result is stored into an int global, so the long
value is truncated to int on assignment.  none models the
invalid_usb_device_id / usage(1) exit. -/
def parse_device_id (s : List Char) : Option DeviceId :=
  match strchrSuffix s '-' with
  | some (_ :: d1 :: drest) =>
      let b := strtol s 10
      if b.2.head? = some '-' then
        let a := strtol (d1 :: drest) 10
        if a.2 = [] then some (DeviceId.busAddr (truncToInt b.1) (truncToInt a.1))
        else none
      else none
  | _ =>
      match strchrSuffix s ':' with
      | some (_ :: d1 :: drest) =>
          let v := strtol s 16
          if v.2.head? = some ':' then
            let p := strtol (d1 :: drest) 16
            if p.2 = [] then some (DeviceId.vidPid (truncToInt v.1) (truncToInt p.1))
            else none
          else none
      | _ => none

/-! ## Startup (main, lines 334-447) -/

/-- One option occurrence as getopt_long delivers it, in argv order. -/
inductive Opt where
  | portOpt (arg : List Char)
  | verboseOpt (arg : List Char)
  | waitOpt
  | timeoutOpt (arg : List Char)
  | helpOpt
  | badOpt
  deriving Repr, DecidableEq

/-- The option values main accumulates while looping over getopt_long. -/
structure Settings where
  port : Int
  verbose : Int
  waitMode : Bool
  waitTimeout : Int
  deriving Repr, DecidableEq

/-- Initial values of the option globals (lines 43-46, 338); verbose
starts at usbredirparser_info, whose numeric value lives in the external
usbredirparser header. -/
def initSettings (verboseInit : Int) : Settings :=
  { port := 4000, verbose := verboseInit, waitMode := false, waitTimeout := 3 }

/-- Startup actions, recorded so that "before any resource is opened"
is checkable on the trace. -/
inductive StartEv where
  | errPrint
  | usagePrint
  | sigactionEv
  | libusbInitEv
  | socketEv
  | bindEv
  | listenEv
  deriving Repr, DecidableEq

/-- True for the events that open a process resource. -/
def isResourceEv : StartEv → Bool
  | StartEv.libusbInitEv => true
  | StartEv.socketEv => true
  | StartEv.bindEv => true
  | StartEv.listenEv => true
  | _ => false

/-- Result of the startup phase of main: exit through usage(exit_code),
or reach the resource-acquisition phase with the parsed settings and
device identity. -/
inductive StartupRes where
  | usageExit (code : Nat)
  | started (s : Settings) (dev : DeviceId)
  deriving Repr, DecidableEq

/-- The getopt_long loop (lines 343-374): each numeric option is parsed
with strtol and rejected through usage(1) when endptr does not sit on
the terminator; -w sets wait_mode; -h exits through usage(0); an
unknown option exits through usage(1). -/
def procOpts (s : Settings) : List Opt → (Option (Nat × List StartEv)) × Settings
  | [] => (none, s)
  | o :: rest =>
    match o with
    | Opt.portOpt a =>
        let r := strtol a 10
        if r.2 ≠ [] then (some (1, [StartEv.errPrint, StartEv.usagePrint]), s)
        else procOpts { s with port := truncToInt r.1 } rest
    | Opt.verboseOpt a =>
        let r := strtol a 10
        if r.2 ≠ [] then (some (1, [StartEv.errPrint, StartEv.usagePrint]), s)
        else procOpts { s with verbose := truncToInt r.1 } rest
    | Opt.waitOpt => procOpts { s with waitMode := true } rest
    | Opt.timeoutOpt a =>
        let r := strtol a 10
        if r.2 ≠ [] then (some (1, [StartEv.errPrint, StartEv.usagePrint]), s)
        else procOpts { s with waitTimeout := truncToInt r.1 } rest
    | Opt.helpOpt => (some (0, [StartEv.usagePrint]), s)
    | Opt.badOpt => (some (1, [StartEv.usagePrint]), s)

/-- The startup phase of main (lines 343-447): process the options,
require exactly one positional argument, parse it as a device
identifier, and only then install the signal handlers, initialize
libusb and create, bind and listen on the server socket. -/
def main_startup (verboseInit : Int) (opts : List Opt)
    (positionals : List (List Char)) : StartupRes × List StartEv :=
  match procOpts (initSettings verboseInit) opts with
  | (some (code, tr), _) => (StartupRes.usageExit code, tr)
  | (none, s) =>
    match positionals with
    | [] => (StartupRes.usageExit 1, [StartEv.errPrint, StartEv.usagePrint])
    | a :: rest =>
      match parse_device_id a with
      | none => (StartupRes.usageExit 1, [StartEv.errPrint, StartEv.usagePrint])
      | some dev =>
        match rest with
        | _ :: _ => (StartupRes.usageExit 1, [StartEv.errPrint, StartEv.usagePrint])
        | [] =>
            (StartupRes.started s dev,
             [StartEv.sigactionEv, StartEv.libusbInitEv, StartEv.socketEv,
              StartEv.bindEv, StartEv.listenEv])

/-! ## Helper lemmas about the retry loop -/

/-- Forget the running flag of a state (used to compare executions that
differ only in signal delivery). -/
def St.scrubRun (st : St) : St := { st with running := true }

/-- Forget the running flag inside a retry result. -/
def RetryRes.scrubRun : RetryRes → RetryRes
  | RetryRes.clientGone st => RetryRes.clientGone st.scrubRun
  | RetryRes.found st => RetryRes.found st.scrubRun
  | RetryRes.procExit c => RetryRes.procExit c

/-- Forget the running flag inside an optional retry outcome. -/
def scrubRetry : Option (RetryRes × List Ev) → Option (RetryRes × List Ev)
  | none => none
  | some (r, tr) => some (r.scrubRun, tr)

/-- A retry oracle with the signal removed. -/
def RetryEnv.clearSignal (e : RetryEnv) : RetryEnv := { e with signal := false }

theorem clientOpen_scrubRun (st : St) : st.scrubRun.clientOpen = st.clientOpen := rfl

theorem retryLoop_closed (st : St) (l : List RetryEnv) (h : st.clientOpen = false) :
    retryLoop st l = some (RetryRes.clientGone st, []) := by
  cases l with
  | nil => simp [retryLoop, h]
  | cons e rest => simp [retryLoop, h]

theorem retryLoop_scrub (l : List RetryEnv) : ∀ st : St,
    scrubRetry (retryLoop st l) = retryLoop st.scrubRun (l.map RetryEnv.clearSignal) := by
  induction l with
  | nil =>
      intro ⟨ru, co, wm, ws, ha, ho⟩
      cases co <;>
        simp [retryLoop, scrubRetry, St.scrubRun, RetryRes.scrubRun]
  | cons e rest ih =>
      intro ⟨ru, co, wm, ws, ha, ho⟩
      cases co
      · simp [retryLoop, scrubRetry, St.scrubRun, RetryRes.scrubRun]
      · cases hi : e.initFails
        · cases hd : e.deviceFound
          · have ihx := ih ⟨ru && !e.signal, true, wm, ws, ha, ho⟩
            simp only [retryLoop, hi, hd, RetryEnv.clearSignal, St.scrubRun] at ihx ⊢
            simp only [Bool.not_false, Bool.and_true] at ihx ⊢
            rw [← ihx]
            cases hr : retryLoop ⟨ru && !e.signal, true, wm, ws, ha, ho⟩ rest with
            | none => simp [scrubRetry, hr]
            | some v =>
                obtain ⟨r, tr⟩ := v
                simp [scrubRetry, hr]
          · simp [retryLoop, hi, hd, RetryEnv.clearSignal, scrubRetry,
                  RetryRes.scrubRun, St.scrubRun]
        · simp [retryLoop, hi, RetryEnv.clearSignal, scrubRetry,
                RetryRes.scrubRun, St.scrubRun]

theorem retryLoop_open_kinds (l : List RetryEnv) : ∀ st : St, st.clientOpen = true →
    ∀ r tr, retryLoop st l = some (r, tr) →
      (∃ s2, r = RetryRes.found s2) ∨ r = RetryRes.procExit 1 := by
  induction l with
  | nil => intro st h r tr hr; simp [retryLoop, h] at hr
  | cons e rest ih =>
      intro ⟨ru, co, wm, ws, ha, ho⟩ h r tr hr
      cases co
      · simp at h
      · simp only [retryLoop] at hr
        cases hi : e.initFails
        · cases hd : e.deviceFound
          · simp [hi, hd] at hr
            cases hrec : retryLoop ⟨ru && !e.signal, true, wm, ws, ha, ho⟩ rest with
            | none => rw [hrec] at hr; simp at hr
            | some v =>
                obtain ⟨r1, tr1⟩ := v
                rw [hrec] at hr
                simp at hr
                obtain ⟨hr1, -⟩ := hr
                subst hr1
                exact ih ⟨ru && !e.signal, true, wm, ws, ha, ho⟩ rfl r1 tr1 hrec
          · simp [hi, hd] at hr
            exact Or.inl ⟨_, hr.1.symm⟩
        · simp [hi] at hr
          exact Or.inr hr.1.symm

/-! ## Claim theorems: transport write callback and retry loop -/

/-- C6: the write callback returns 0 (try again later) on EAGAIN with
the channel untouched, and treats a write failure with EPIPE (the peer
ended the connection) as a graceful close: the channel is marked closed
and the returned value is 0, never negative. -/
theorem write_callback_peer_close_graceful (clientOpen : Bool) (r : Int) (h : r < 0) :
    usbredirserver_write clientOpen r IOErrno.eagain = (0, clientOpen) ∧
    usbredirserver_write clientOpen r IOErrno.epipe = (0, false) ∧
    0 ≤ (usbredirserver_write clientOpen r IOErrno.epipe).1 := by
  refine ⟨?_, ?_, ?_⟩ <;> simp [usbredirserver_write, h]

/-- Witness for C6 at a concrete failing write. -/
theorem write_callback_peer_close_graceful_witness :
    usbredirserver_write true (-1) IOErrno.eagain = (0, true) ∧
    usbredirserver_write true (-1) IOErrno.epipe = (0, false) ∧
    0 ≤ (usbredirserver_write true (-1) IOErrno.epipe).1 :=
  write_callback_peer_close_graceful true (-1) (by decide)

/-- C9: if libusb_init fails inside the wait-mode reconnection retry
block while the transport is still open, the process exits immediately
with status 1 (exit(1) at line 291). -/
theorem reinit_failure_exits_process (st : St) (e : RetryEnv) (rest : List RetryEnv)
    (hopen : st.clientOpen = true) (hfail : e.initFails = true) :
    retryLoop st (e :: rest) = some (RetryRes.procExit 1, [Ev.libusbReinit]) := by
  simp [retryLoop, hopen, hfail]

/-- Witness for C9 at a concrete state and retry oracle. -/
theorem reinit_failure_exits_process_witness :
    retryLoop
      { running := true, clientOpen := true, waitMode := true, waitModeState := 1,
        handle := false, host := { caps := [7] } }
      [{ signal := false, initFails := true, deviceFound := false, flushCloses := false }]
      = some (RetryRes.procExit 1, [Ev.libusbReinit]) :=
  reinit_failure_exits_process _ _ _ rfl rfl

/-- C5: a successful pass through the reconnection retry block leaves
the capability content of the freshly opened redirection-host instance
(after usbredirhost_restore_caps_and_send_device_connect) equal to the
snapshot saved from the old instance by usbredirhost_save_caps, i.e.
save followed by restore is a no-op on capability content. -/
theorem reconnect_caps_roundtrip (l : List RetryEnv) : ∀ (st st2 : St) (tr : List Ev),
    retryLoop st l = some (RetryRes.found st2, tr) →
      st2.host = usbredirhost_restore_caps_and_send_device_connect
        usbredirhost_open_model (usbredirhost_save_caps st.host) ∧
      st2.host.caps = st.host.caps := by
  induction l with
  | nil =>
      intro ⟨ru, co, wm, ws, ha, ho⟩ st2 tr h
      cases co <;> simp [retryLoop] at h
  | cons e rest ih =>
      intro ⟨ru, co, wm, ws, ha, ho⟩ st2 tr h
      cases co
      · simp [retryLoop] at h
      · simp only [retryLoop] at h
        cases hi : e.initFails
        · cases hd : e.deviceFound
          · simp [hi, hd] at h
            cases hrec : retryLoop ⟨ru && !e.signal, true, wm, ws, ha, ho⟩ rest with
            | none => rw [hrec] at h; simp at h
            | some v =>
                obtain ⟨r1, tr1⟩ := v
                rw [hrec] at h
                simp at h
                obtain ⟨h1, -⟩ := h
                subst h1
                exact ih ⟨ru && !e.signal, true, wm, ws, ha, ho⟩ st2 tr1 hrec
          · simp [hi, hd] at h
            rw [← h.1]
            simp [usbredirhost_restore_caps_and_send_device_connect,
                  usbredirhost_open_model, usbredirhost_save_caps]
        · simp [hi] at h

/-- Witness for C5 at a concrete successful reconnection. -/
theorem reconnect_caps_roundtrip_witness :
    ({ running := true, clientOpen := true, waitMode := true, waitModeState := 1,
       handle := true,
       host := usbredirhost_restore_caps_and_send_device_connect usbredirhost_open_model
         (usbredirhost_save_caps { caps := [3, 1, 4] }) } : St).host.caps
      = ({ caps := [3, 1, 4] } : Host).caps :=
  (reconnect_caps_roundtrip
    [{ signal := false, initFails := false, deviceFound := true, flushCloses := false }]
    { running := true, clientOpen := true, waitMode := true, waitModeState := 1,
      handle := false, host := { caps := [3, 1, 4] } }
    { running := true, clientOpen := true, waitMode := true, waitModeState := 1,
      handle := true,
      host := usbredirhost_restore_caps_and_send_device_connect usbredirhost_open_model
        (usbredirhost_save_caps { caps := [3, 1, 4] }) }
    [Ev.libusbReinit, Ev.findDeviceEv, Ev.saveCapsEv, Ev.openHostEv,
     Ev.restoreCapsEv, Ev.writeGuest]
    (by decide)).2

/-- C10: the termination flag is not consulted inside the reconnection
retry block.  First conjunct: delivering termination signals during the
retry iterations changes nothing observable about the retry block
except the recorded running flag itself.  Second conjunct: when the
transport is open at entry the block's only exits are a successfully
obtained device handle or the exit(1) on libusb_init failure.  Third
conjunct: the only other exit is the transport having become closed,
checked at the top of the retry loop. -/
theorem retry_ignores_termination_flag (st : St) (l : List RetryEnv) :
    scrubRetry (retryLoop st l) = scrubRetry (retryLoop st (l.map RetryEnv.clearSignal)) ∧
    (st.clientOpen = true → ∀ r tr, retryLoop st l = some (r, tr) →
      (∃ s2, r = RetryRes.found s2) ∨ r = RetryRes.procExit 1) ∧
    (st.clientOpen = false → retryLoop st l = some (RetryRes.clientGone st, [])) := by
  refine ⟨?_, retryLoop_open_kinds l st, retryLoop_closed st l⟩
  rw [retryLoop_scrub l st, retryLoop_scrub (l.map RetryEnv.clearSignal) st]
  have : (l.map RetryEnv.clearSignal).map RetryEnv.clearSignal
      = l.map RetryEnv.clearSignal := by
    rw [List.map_map]
    apply List.map_congr_left
    intro a _
    simp [RetryEnv.clearSignal]
  rw [this]

/-- Witness for C10: a concrete retry run in which a termination signal
is delivered yet the block still exits by obtaining the device. -/
theorem retry_ignores_termination_flag_witness :
    (∃ s2, RetryRes.found
        ({ running := false, clientOpen := true, waitMode := true, waitModeState := 1,
           handle := true, host := { caps := [5] } } : St) = RetryRes.found s2) ∨
      RetryRes.found
        ({ running := false, clientOpen := true, waitMode := true, waitModeState := 1,
           handle := true, host := { caps := [5] } } : St) = RetryRes.procExit 1 :=
  (retry_ignores_termination_flag
    { running := true, clientOpen := true, waitMode := true, waitModeState := 1,
      handle := false, host := { caps := [5] } }
    [{ signal := true, initFails := false, deviceFound := true,
       flushCloses := false }]).2.1 rfl
    (RetryRes.found
      { running := false, clientOpen := true, waitMode := true, waitModeState := 1,
        handle := true, host := { caps := [5] } })
    [Ev.libusbReinit, Ev.findDeviceEv, Ev.saveCapsEv, Ev.openHostEv,
     Ev.restoreCapsEv, Ev.writeGuest]
    (by decide)

/-! ## The device locator and the parsed identity -/

/-- C7 (amended): a BUS-ADDRESS-form identifier leaves usbvendor at the
-1 sentinel, so find_device resolves it exclusively by scanning the
device list for the matching (bus, address) pair.  A VENDOR:PRODUCT-form
identifier resolves exclusively through libusb_open_device_with_vid_pid
provided the parsed vendor value — the strtol result as truncated into
the int global — is not -1; when the truncated vendor happens to equal
the -1 sentinel (e.g. the hex text ffffffff), find_device instead falls
through to the bus/address scan. -/
theorem locator_resolution (s : List Char) (env : UsbEnv) :
    (∀ b a, parse_device_id s = some (DeviceId.busAddr b a) →
      find_device (-1) (-1) b a env =
        ((env.devices.any (fun d => d.bus == b && d.addr == a)) && env.openOk,
         FindMethod.busScan)) ∧
    (∀ v p, parse_device_id s = some (DeviceId.vidPid v p) → v ≠ -1 →
      find_device v p (-1) (-1) env = (env.vidPidOpenOk, FindMethod.vidPidOpen)) ∧
    (∀ v p, parse_device_id s = some (DeviceId.vidPid v p) → v = -1 →
      find_device v p (-1) (-1) env =
        ((env.devices.any (fun d => d.bus == (-1 : Int) && d.addr == (-1 : Int)))
          && env.openOk, FindMethod.busScan)) := by
  refine ⟨fun b a _ => by simp [find_device], fun v p _ hne => by simp [find_device, hne],
    fun v p _ hv => by simp [find_device, hv]⟩

/-- Witness for C7 (amended) on the spec's two example identifiers and
on the wraparound identifier that falls through to the scan. -/
theorem locator_resolution_witness :
    find_device (-1) (-1) 1 4
        { devices := [{ bus := 1, addr := 4 }], vidPidOpenOk := true, openOk := true } =
      ((List.any [({ bus := 1, addr := 4 } : UsbDevice)]
          (fun d => d.bus == 1 && d.addr == 4)) && true,
       FindMethod.busScan) ∧
    find_device 4660 43981 (-1) (-1)
        { devices := [{ bus := 1, addr := 4 }], vidPidOpenOk := true, openOk := true } =
      (true, FindMethod.vidPidOpen) ∧
    find_device (-1) 1 (-1) (-1)
        { devices := [{ bus := 1, addr := 4 }], vidPidOpenOk := true, openOk := true } =
      ((List.any [({ bus := 1, addr := 4 } : UsbDevice)]
          (fun d => d.bus == (-1 : Int) && d.addr == (-1 : Int))) && true,
       FindMethod.busScan) :=
  ⟨(locator_resolution ("1-4".toList)
      { devices := [{ bus := 1, addr := 4 }], vidPidOpenOk := true, openOk := true }).1
      1 4 (by decide),
   (locator_resolution ("1234:abcd".toList)
      { devices := [{ bus := 1, addr := 4 }], vidPidOpenOk := true, openOk := true }).2.1
      4660 43981 (by decide) (by decide),
   (locator_resolution ("ffffffff:0001".toList)
      { devices := [{ bus := 1, addr := 4 }], vidPidOpenOk := true, openOk := true }).2.2
      (-1) 1 (by decide) rfl⟩

/-- Counterexample to C7 as stated: the VENDOR:PRODUCT-form identifier
ffffffff:0001 is accepted by main's ':' branch, but the strtol value
0xFFFFFFFF truncates to -1 when stored into the int global usbvendor,
so find_device takes the bus/address-scan branch — a vendor:product
argument that does scan the device list and never attempts the vid:pid
open. -/
theorem locator_hex_wraparound_counterexample :
    parse_device_id ("ffffffff:0001".toList) = some (DeviceId.vidPid (-1) 1) ∧
    (find_device (-1) 1 (-1) (-1)
      { devices := [], vidPidOpenOk := true, openOk := true }).2
      = FindMethod.busScan := by
  decide

/-! ## Usage errors happen before resources are opened (startup) -/

/-- An option whose numeric value strtol does not consume entirely, so
main rejects it at lines 347, 354 or 364. -/
def Opt.malformedNumeric : Opt → Bool
  | Opt.portOpt a => decide ((strtol a 10).2 ≠ [])
  | Opt.verboseOpt a => decide ((strtol a 10).2 ≠ [])
  | Opt.timeoutOpt a => decide ((strtol a 10).2 ≠ [])
  | _ => false

/-- The device-identifier argument is present but fails to parse. -/
def malformedDeviceArg : List (List Char) → Bool
  | a :: _ => (parse_device_id a).isNone
  | [] => false

theorem procOpts_malformed : ∀ (opts : List Opt), Opt.helpOpt ∉ opts →
    opts.any Opt.malformedNumeric = true → ∀ s,
    ∃ tr s2, procOpts s opts = (some (1, tr), s2) ∧
      tr.all (fun ev => !isResourceEv ev) = true := by
  intro opts
  induction opts with
  | nil => intro _ hmal s; simp at hmal
  | cons o rest ih =>
      intro hhelp hmal s
      have hh2 : Opt.helpOpt ∉ rest := fun hx => hhelp (List.mem_cons_of_mem _ hx)
      cases o with
      | portOpt a =>
          by_cases hm : (strtol a 10).2 = []
          · have hrest : rest.any Opt.malformedNumeric = true := by
              simpa [Opt.malformedNumeric, hm] using hmal
            obtain ⟨tr, s2, hp, htr⟩ := ih hh2 hrest { s with port := truncToInt (strtol a 10).1 }
            exact ⟨tr, s2, by simp [procOpts, hm, hp], htr⟩
          · exact ⟨[StartEv.errPrint, StartEv.usagePrint], s,
              by simp [procOpts, hm], by decide⟩
      | verboseOpt a =>
          by_cases hm : (strtol a 10).2 = []
          · have hrest : rest.any Opt.malformedNumeric = true := by
              simpa [Opt.malformedNumeric, hm] using hmal
            obtain ⟨tr, s2, hp, htr⟩ := ih hh2 hrest { s with verbose := truncToInt (strtol a 10).1 }
            exact ⟨tr, s2, by simp [procOpts, hm, hp], htr⟩
          · exact ⟨[StartEv.errPrint, StartEv.usagePrint], s,
              by simp [procOpts, hm], by decide⟩
      | timeoutOpt a =>
          by_cases hm : (strtol a 10).2 = []
          · have hrest : rest.any Opt.malformedNumeric = true := by
              simpa [Opt.malformedNumeric, hm] using hmal
            obtain ⟨tr, s2, hp, htr⟩ := ih hh2 hrest { s with waitTimeout := truncToInt (strtol a 10).1 }
            exact ⟨tr, s2, by simp [procOpts, hm, hp], htr⟩
          · exact ⟨[StartEv.errPrint, StartEv.usagePrint], s,
              by simp [procOpts, hm], by decide⟩
      | waitOpt =>
          have hrest : rest.any Opt.malformedNumeric = true := by
            simpa [Opt.malformedNumeric] using hmal
          obtain ⟨tr, s2, hp, htr⟩ := ih hh2 hrest { s with waitMode := true }
          exact ⟨tr, s2, by simp [procOpts, hp], htr⟩
      | helpOpt => exact absurd (List.mem_cons_self _ _) hhelp
      | badOpt => exact ⟨[StartEv.usagePrint], s, by simp [procOpts], by decide⟩

theorem procOpts_no_help : ∀ (opts : List Opt), Opt.helpOpt ∉ opts → ∀ s,
    (∃ s2, procOpts s opts = (none, s2)) ∨
    (∃ tr s2, procOpts s opts = (some (1, tr), s2) ∧
      tr.all (fun ev => !isResourceEv ev) = true) := by
  intro opts
  induction opts with
  | nil => intro _ s; exact Or.inl ⟨s, rfl⟩
  | cons o rest ih =>
      intro hhelp s
      have hh2 : Opt.helpOpt ∉ rest := fun hx => hhelp (List.mem_cons_of_mem _ hx)
      cases o with
      | portOpt a =>
          by_cases hm : (strtol a 10).2 = []
          · rcases ih hh2 { s with port := truncToInt (strtol a 10).1 } with ⟨s2, hp⟩ | ⟨tr, s2, hp, htr⟩
            · exact Or.inl ⟨s2, by simp [procOpts, hm, hp]⟩
            · exact Or.inr ⟨tr, s2, by simp [procOpts, hm, hp], htr⟩
          · exact Or.inr ⟨[StartEv.errPrint, StartEv.usagePrint], s,
              by simp [procOpts, hm], by decide⟩
      | verboseOpt a =>
          by_cases hm : (strtol a 10).2 = []
          · rcases ih hh2 { s with verbose := truncToInt (strtol a 10).1 } with ⟨s2, hp⟩ | ⟨tr, s2, hp, htr⟩
            · exact Or.inl ⟨s2, by simp [procOpts, hm, hp]⟩
            · exact Or.inr ⟨tr, s2, by simp [procOpts, hm, hp], htr⟩
          · exact Or.inr ⟨[StartEv.errPrint, StartEv.usagePrint], s,
              by simp [procOpts, hm], by decide⟩
      | timeoutOpt a =>
          by_cases hm : (strtol a 10).2 = []
          · rcases ih hh2 { s with waitTimeout := truncToInt (strtol a 10).1 } with ⟨s2, hp⟩ | ⟨tr, s2, hp, htr⟩
            · exact Or.inl ⟨s2, by simp [procOpts, hm, hp]⟩
            · exact Or.inr ⟨tr, s2, by simp [procOpts, hm, hp], htr⟩
          · exact Or.inr ⟨[StartEv.errPrint, StartEv.usagePrint], s,
              by simp [procOpts, hm], by decide⟩
      | waitOpt =>
          rcases ih hh2 { s with waitMode := true } with ⟨s2, hp⟩ | ⟨tr, s2, hp, htr⟩
          · exact Or.inl ⟨s2, by simp [procOpts, hp]⟩
          · exact Or.inr ⟨tr, s2, by simp [procOpts, hp], htr⟩
      | helpOpt => exact absurd (List.mem_cons_self _ _) hhelp
      | badOpt => exact Or.inr ⟨[StartEv.usagePrint], s, by simp [procOpts], by decide⟩

/-- C8 (amended): provided the help option is absent (it exits through
the usage message with status 0 before option validation finishes), a
malformed numeric option value or a malformed device identifier makes
main print the usage message and exit with status 1 before any resource
is opened: the startup trace contains no libusb-init, socket, bind or
listen event. -/
theorem usage_error_before_resources (verboseInit : Int) (opts : List Opt)
    (positionals : List (List Char)) (hhelp : Opt.helpOpt ∉ opts)
    (hmal : opts.any Opt.malformedNumeric = true ∨ malformedDeviceArg positionals = true) :
    (main_startup verboseInit opts positionals).1 = StartupRes.usageExit 1 ∧
    (main_startup verboseInit opts positionals).2.all (fun ev => !isResourceEv ev) = true := by
  cases hmal with
  | inl hm =>
      obtain ⟨tr, s2, hp, htr⟩ := procOpts_malformed opts hhelp hm (initSettings verboseInit)
      simp [main_startup, hp, htr]
  | inr hm =>
      rcases procOpts_no_help opts hhelp (initSettings verboseInit) with
        ⟨s2, hp⟩ | ⟨tr, s2, hp, htr⟩
      · cases positionals with
        | nil => simp [malformedDeviceArg] at hm
        | cons a rest =>
            have hpa : parse_device_id a = none := by
              simpa [malformedDeviceArg, Option.isNone_iff_eq_none] using hm
            simp [main_startup, hp, hpa]
            decide
      · simp [main_startup, hp, htr]

/-- Witness for C8 (amended) at a concrete malformed port value. -/
theorem usage_error_before_resources_witness :
    (main_startup 2 [Opt.portOpt ['1', '2', 'x']] ["1-4".toList]).1
        = StartupRes.usageExit 1 ∧
    (main_startup 2 [Opt.portOpt ['1', '2', 'x']] ["1-4".toList]).2.all
        (fun ev => !isResourceEv ev) = true :=
  usage_error_before_resources 2 [Opt.portOpt ['1', '2', 'x']] ["1-4".toList]
    (by decide) (Or.inl (by decide))

/-- Counterexample to C8 as stated: when the help option precedes a
malformed numeric option, the process exits through the usage message
with status 0, not a non-zero status, even though a malformed numeric
option value is present on the command line. -/
theorem usage_error_help_counterexample :
    List.any [Opt.helpOpt, Opt.portOpt ['1', '2', 'x']] Opt.malformedNumeric = true ∧
    (main_startup 2 [Opt.helpOpt, Opt.portOpt ['1', '2', 'x']] ["1-4".toList]).1
      = StartupRes.usageExit 0 := by
  decide

/-! ## Trace properties of a single loop iteration -/

/-- Events that must not happen after the transport has reported
peer-closed within an iteration: further outbound pumping and any part
of the reconnection machinery. -/
def barredAfterClose : Ev → Bool
  | Ev.writeGuest => true
  | Ev.reconEnter => true
  | Ev.libusbReinit => true
  | Ev.findDeviceEv => true
  | Ev.saveCapsEv => true
  | Ev.openHostEv => true
  | Ev.restoreCapsEv => true
  | _ => false

/-- After every closeClient in the trace, no barred event follows. -/
def noWriteAfterClose : List Ev → Bool
  | [] => true
  | Ev.closeClient :: r =>
      r.all (fun x => !barredAfterClose x) && noWriteAfterClose r
  | _ :: r => noWriteAfterClose r

/-- The iteration outcome ends the session: the loop was broken out of,
or falls through to a guard check that client_fd == -1 fails. -/
def sessionOver : IterOut → Bool
  | IterOut.brk _ _ => true
  | IterOut.next st _ => !st.clientOpen
  | _ => false

/-- Phase of the in-iteration pipeline reached so far: 0 while only
inbound pumping has happened, 1 once outbound pumping has happened,
2 once USB event servicing has happened. -/
def phaseStep (ph : Nat) (x : Ev) : Nat :=
  match x with
  | Ev.writeGuest => max ph 1
  | Ev.handleEvents => 2
  | _ => ph

/-- Checks the spec's in-iteration ordering: every inbound pump comes
before every outbound pump, and both before every USB event servicing. -/
def pumpOrderAux : Nat → List Ev → Bool
  | _, [] => true
  | ph, x :: r =>
      (match x with
       | Ev.readGuest => decide (ph = 0)
       | Ev.writeGuest => decide (ph ≤ 1)
       | _ => true) && pumpOrderAux (phaseStep ph x) r

/-- The ordering property over a whole iteration trace. -/
def pumpOrder (tr : List Ev) : Bool := pumpOrderAux 0 tr

theorem noWriteAfterClose_of_no_close : ∀ (t : List Ev), Ev.closeClient ∉ t →
    noWriteAfterClose t = true := by
  intro t
  induction t with
  | nil => intro _; rfl
  | cons x r ih =>
      intro h
      have hx : x ≠ Ev.closeClient := fun hc => h (hc ▸ List.mem_cons_self x r)
      have hr : Ev.closeClient ∉ r := fun hc => h (List.mem_cons_of_mem _ hc)
      cases x <;> simp [noWriteAfterClose] <;> first
        | exact ih hr
        | exact absurd rfl hx

theorem noWriteAfterClose_append (t1 t2 : List Ev)
    (h1 : noWriteAfterClose t1 = true) (h2 : noWriteAfterClose t2 = true)
    (h3 : Ev.closeClient ∈ t1 → t2.all (fun x => !barredAfterClose x) = true) :
    noWriteAfterClose (t1 ++ t2) = true := by
  induction t1 with
  | nil => simpa using h2
  | cons x r ih =>
      cases hx : x
      all_goals subst hx
      case closeClient =>
        simp only [noWriteAfterClose, Bool.and_eq_true] at h1
        simp only [List.cons_append, noWriteAfterClose, Bool.and_eq_true]
        refine ⟨?_, ih h1.2 (fun _ => h3 (List.mem_cons_self _ _))⟩
        simp only [List.append_eq, List.all_append, Bool.and_eq_true]
        exact ⟨h1.1, h3 (List.mem_cons_self _ _)⟩
      all_goals
        simp only [noWriteAfterClose] at h1
        simp only [List.cons_append, noWriteAfterClose]
        exact ih h1 (fun hm => h3 (List.mem_cons_of_mem _ hm))

/-! ## Retry-loop trace lemmas -/

theorem retryLoop_clientGone_inv (st : St) (l : List RetryEnv) (st2 : St) (tr : List Ev)
    (h : retryLoop st l = some (RetryRes.clientGone st2, tr)) :
    st.clientOpen = false ∧ st2 = st ∧ tr = [] := by
  by_cases ho : st.clientOpen = true
  · rcases retryLoop_open_kinds l st ho _ _ h with ⟨s2, hs⟩ | hs
    · cases hs
    · cases hs
  · simp at ho
    have hc := retryLoop_closed st l ho
    rw [hc] at h
    simp at h
    exact ⟨ho, h.1.symm, h.2⟩

theorem retryLoop_trace_clean (l : List RetryEnv) : ∀ (st : St) (r : RetryRes) (tr : List Ev),
    retryLoop st l = some (r, tr) →
    noWriteAfterClose tr = true ∧ Ev.engineClose ∉ tr ∧
    (Ev.closeClient ∈ tr →
      (∃ st2, r = RetryRes.found st2 ∧ st2.clientOpen = false) ∧
      l.any (fun x => x.flushCloses) = true) := by
  induction l with
  | nil =>
      intro ⟨ru, co, wm, ws, ha, ho⟩ r tr h
      cases co <;> simp [retryLoop] at h
      obtain ⟨h1, h2⟩ := h
      subst h2
      exact ⟨rfl, by simp, by simp⟩
  | cons e rest ih =>
      intro ⟨ru, co, wm, ws, ha, ho⟩ r tr h
      cases co
      · simp [retryLoop] at h
        obtain ⟨h1, h2⟩ := h
        subst h2
        exact ⟨rfl, by simp, by simp⟩
      · simp only [retryLoop] at h
        cases hi : e.initFails
        · cases hd : e.deviceFound
          · simp [hi, hd] at h
            cases hrec : retryLoop ⟨ru && !e.signal, true, wm, ws, ha, ho⟩ rest with
            | none => rw [hrec] at h; simp at h
            | some v =>
                obtain ⟨r1, tr1⟩ := v
                rw [hrec] at h
                simp at h
                obtain ⟨hr1, htr⟩ := h
                subst hr1
                obtain ⟨c1, c2, c3⟩ := ih ⟨ru && !e.signal, true, wm, ws, ha, ho⟩ r1 tr1 hrec
                rw [← htr]
                refine ⟨by simpa [noWriteAfterClose] using c1,
                        by simpa using c2, ?_⟩
                intro hm
                have hm1 : Ev.closeClient ∈ tr1 := by simpa using hm
                obtain ⟨cf, ca⟩ := c3 hm1
                exact ⟨cf, by simp [ca]⟩
          · simp [hi, hd] at h
            obtain ⟨hr1, htr⟩ := h
            cases hf : e.flushCloses
            · rw [hf] at htr
              simp at htr
              rw [← htr]
              refine ⟨by decide, by decide, ?_⟩
              intro hm
              simp at hm
            · rw [hf] at htr
              simp at htr
              rw [← htr]
              refine ⟨by decide, by decide, ?_⟩
              intro _
              refine ⟨⟨_, hr1.symm, ?_⟩, by simp [hf]⟩
              simp [hf]
        · simp [hi] at h
          rw [← h.2]
          exact ⟨by decide, by decide, by simp⟩

/-! ## Shape lemmas for the dispatch phases -/

theorem readPhase_spec (st : St) (e : IterEnv) :
    ∃ st1 tr1 b1, readPhase st e = (st1, tr1, b1) ∧
      ((tr1 = [] ∧ st1 = st) ∨ (tr1 = [Ev.readGuest] ∧ st1 = st) ∨
        (tr1 = [Ev.readGuest, Ev.closeClient] ∧ e.readOut.closes = true ∧
          st1.clientOpen = false)) ∧
      (b1 = false → st1.clientOpen = true) := by
  obtain ⟨ru, co, wm, ws, ha, ho⟩ := st
  by_cases hre : e.clientReadable = true
  · cases co
    · refine ⟨⟨ru, false, wm, ws, ha, ho⟩, [Ev.readGuest], true, ?_,
        Or.inr (Or.inl ⟨rfl, rfl⟩), by simp⟩
      cases herr : e.readOut.err <;>
        cases hcl : e.readOut.closes <;>
          simp [readPhase, hre, hcl, herr]
    · by_cases hcl : e.readOut.closes = true
      · refine ⟨⟨ru, false, wm, ws, ha, ho⟩, [Ev.readGuest, Ev.closeClient], true,
          ?_, Or.inr (Or.inr ⟨rfl, hcl, rfl⟩), by simp⟩
        cases herr : e.readOut.err <;> simp [readPhase, hre, hcl, herr]
      · simp only [Bool.not_eq_true] at hcl
        refine ⟨⟨ru, true, wm, ws, ha, ho⟩, [Ev.readGuest], e.readOut.err, ?_,
          Or.inr (Or.inl ⟨rfl, rfl⟩), fun _ => rfl⟩
        cases herr : e.readOut.err <;> simp [readPhase, hre, hcl, herr]
  · simp only [Bool.not_eq_true] at hre
    cases co
    · exact ⟨⟨ru, false, wm, ws, ha, ho⟩, [], true, by simp [readPhase, hre],
        Or.inl ⟨rfl, rfl⟩, by simp⟩
    · exact ⟨⟨ru, true, wm, ws, ha, ho⟩, [], false, by simp [readPhase, hre],
        Or.inl ⟨rfl, rfl⟩, fun _ => rfl⟩

theorem writePhase_spec (st : St) (e : IterEnv) :
    ∃ st2 tr2 b2, writePhase st e = (st2, tr2, b2) ∧
      ((tr2 = [] ∧ st2 = st) ∨ (tr2 = [Ev.writeGuest] ∧ st2 = st) ∨
        (tr2 = [Ev.writeGuest, Ev.closeClient] ∧ e.writeOut.closes = true ∧
          st2.clientOpen = false)) := by
  obtain ⟨ru, co, wm, ws, ha, ho⟩ := st
  by_cases hwr : e.clientWritable = true
  · cases co
    · refine ⟨⟨ru, false, wm, ws, ha, ho⟩, [Ev.writeGuest], e.writeOut.err, ?_,
        Or.inr (Or.inl ⟨rfl, rfl⟩)⟩
      cases hcl : e.writeOut.closes <;> simp [writePhase, hwr, hcl]
    · by_cases hcl : e.writeOut.closes = true
      · exact ⟨⟨ru, false, wm, ws, ha, ho⟩, [Ev.writeGuest, Ev.closeClient],
          e.writeOut.err, by simp [writePhase, hwr, hcl],
          Or.inr (Or.inr ⟨rfl, hcl, rfl⟩)⟩
      · simp only [Bool.not_eq_true] at hcl
        exact ⟨⟨ru, true, wm, ws, ha, ho⟩, [Ev.writeGuest], e.writeOut.err,
          by simp [writePhase, hwr, hcl], Or.inr (Or.inl ⟨rfl, rfl⟩)⟩
  · simp only [Bool.not_eq_true] at hwr
    exact ⟨⟨ru, co, wm, ws, ha, ho⟩, [], false, by simp [writePhase, hwr],
      Or.inl ⟨rfl, rfl⟩⟩

/-! ## Trace facts for the reconnection block and wait-mode block -/

theorem reconBlock_facts (st : St) (e : IterEnv) (tr1 : List Ev)
    (hop : st.clientOpen = true) :
    ∃ extra,
      (reconBlock st e tr1).trace = tr1 ++ extra ∧
      Ev.reconEnter ∈ extra ∧
      noWriteAfterClose extra = true ∧
      Ev.engineClose ∉ extra ∧
      (Ev.closeClient ∈ extra →
        (e.flushCloses || e.drainCloses || e.retries.any (fun x => x.flushCloses)) = true) ∧
      (Ev.closeClient ∈ extra → ∃ st2 tr2, reconBlock st e tr1 = IterOut.next st2 tr2 ∧
        st2.clientOpen = false) := by
  obtain ⟨ru, co, wm, ws, ha, ho⟩ := st
  cases co
  · simp at hop
  · cases hf : e.flushCloses
    · cases hd : e.drainCloses
      · -- no peer close during flush or drain: the retry loop runs on an
        -- open transport
        cases hr : retryLoop ⟨ru, true, wm, ws, ha, ho⟩ e.retries with
        | none =>
            refine ⟨[Ev.reconEnter, Ev.writeGuest, Ev.sleepEv, Ev.readGuest],
              ?_, by decide, by decide, by decide, ?_, ?_⟩
            · simp [reconBlock, pumpTr, hf, hd, hr, IterOut.trace]
            · intro hm; simp at hm
            · intro hm; simp at hm
        | some v =>
            obtain ⟨r, trR⟩ := v
            cases r with
            | clientGone st2 =>
                have := (retryLoop_clientGone_inv _ _ _ _ hr).1
                simp at this
            | found st2 =>
                obtain ⟨c1, c2, c3⟩ := retryLoop_trace_clean e.retries _ _ _ hr
                refine ⟨[Ev.reconEnter, Ev.writeGuest, Ev.sleepEv, Ev.readGuest] ++ trR,
                  ?_, by simp, ?_, ?_, ?_, ?_⟩
                · simp [reconBlock, pumpTr, hf, hd, hr, IterOut.trace]
                · exact noWriteAfterClose_append _ _ (by decide) c1
                    (fun hm => by simp at hm)
                · simp only [List.mem_append]
                  rintro (hm | hm)
                  · simp at hm
                  · exact c2 hm
                · intro hm
                  simp only [List.mem_append] at hm
                  rcases hm with hm | hm
                  · simp at hm
                  · simp only [hf, hd, Bool.false_or]
                    exact (c3 hm).2
                · intro hm
                  simp only [List.mem_append] at hm
                  rcases hm with hm | hm
                  · simp at hm
                  · obtain ⟨⟨st3, hst3, hopn⟩, -⟩ := c3 hm
                    cases hst3
                    exact ⟨{ st2 with waitModeState := 0 },
                      tr1 ++ ([Ev.reconEnter, Ev.writeGuest, Ev.sleepEv, Ev.readGuest] ++ trR),
                      by simp [reconBlock, pumpTr, hf, hd, hr], hopn⟩
            | procExit c =>
                obtain ⟨c1, c2, c3⟩ := retryLoop_trace_clean e.retries _ _ _ hr
                refine ⟨[Ev.reconEnter, Ev.writeGuest, Ev.sleepEv, Ev.readGuest] ++ trR,
                  ?_, by simp, ?_, ?_, ?_, ?_⟩
                · simp [reconBlock, pumpTr, hf, hd, hr, IterOut.trace]
                · exact noWriteAfterClose_append _ _ (by decide) c1
                    (fun hm => by simp at hm)
                · simp only [List.mem_append]
                  rintro (hm | hm)
                  · simp at hm
                  · exact c2 hm
                · intro hm
                  simp only [List.mem_append] at hm
                  rcases hm with hm | hm
                  · simp at hm
                  · simp only [hf, hd, Bool.false_or]
                    exact (c3 hm).2
                · intro hm
                  simp only [List.mem_append] at hm
                  rcases hm with hm | hm
                  · simp at hm
                  · obtain ⟨⟨st3, hst3, -⟩, -⟩ := c3 hm
                    cases hst3
      · -- the drain read hits peer EOF: retry loop exits immediately
        have hcl := retryLoop_closed ⟨ru, false, wm, ws, ha, ho⟩ e.retries rfl
        refine ⟨[Ev.reconEnter, Ev.writeGuest, Ev.sleepEv, Ev.readGuest, Ev.closeClient],
          ?_, by decide, by decide, by decide, fun _ => by simp [hd], fun _ => ?_⟩
        · simp [reconBlock, pumpTr, hf, hd, hcl, IterOut.trace]
        · exact ⟨⟨ru, false, wm, 0, ha, ho⟩,
            tr1 ++ [Ev.reconEnter, Ev.writeGuest, Ev.sleepEv, Ev.readGuest, Ev.closeClient],
            by simp [reconBlock, pumpTr, hf, hd, hcl], rfl⟩
    · -- the flush write hits EPIPE: drain happens on a closed channel,
      -- retry loop exits immediately
      have hcl := retryLoop_closed ⟨ru, false, wm, ws, ha, ho⟩ e.retries rfl
      refine ⟨[Ev.reconEnter, Ev.writeGuest, Ev.closeClient, Ev.sleepEv, Ev.readGuest],
        ?_, by decide, by decide, by decide, fun _ => by simp [hf], fun _ => ?_⟩
      · cases hd : e.drainCloses <;>
          simp [reconBlock, pumpTr, hf, hd, hcl, IterOut.trace]
      · refine ⟨⟨ru, false, wm, 0, ha, ho⟩,
          tr1 ++ [Ev.reconEnter, Ev.writeGuest, Ev.closeClient, Ev.sleepEv, Ev.readGuest],
          ?_, rfl⟩
        cases hd : e.drainCloses <;> simp [reconBlock, pumpTr, hf, hd, hcl]

theorem waitBlock_facts (st : St) (e : IterEnv) (t : Bool) (tr0 : List Ev) :
    ∃ extra,
      (waitBlock st e t tr0).trace = tr0 ++ extra ∧
      noWriteAfterClose extra = true ∧
      Ev.engineClose ∉ extra ∧
      (Ev.closeClient ∈ extra →
        (e.flushCloses || e.drainCloses || e.retries.any (fun x => x.flushCloses)) = true) ∧
      (Ev.closeClient ∈ extra → ∃ st2 tr2, waitBlock st e t tr0 = IterOut.next st2 tr2 ∧
        st2.clientOpen = false) ∧
      (st.clientOpen = false → extra = [] ∧
        ∃ st2, waitBlock st e t tr0 = IterOut.next st2 tr0 ∧ st2.clientOpen = false) ∧
      (Ev.reconEnter ∉ extra → ∀ x ∈ extra, x = Ev.probe ∨ x = Ev.disconnectHost) := by
  by_cases hb1 : e.disc = false ∧ st.waitModeState = 0
  · refine ⟨[], by simp [waitBlock, hb1.1, hb1.2, IterOut.trace], by decide,
      by simp, by simp, by simp, ?_, by simp⟩
    intro hcl
    exact ⟨rfl, { st with waitModeState := 1 },
      by simp [waitBlock, hb1.1, hb1.2], hcl⟩
  · by_cases hb2 : st.waitModeState = 1 ∧ st.clientOpen = true
    · have hws := hb2.1
      have hopen := hb2.2
      cases ht : t
      · cases hdisc : e.disc
        · refine ⟨[], ?_, by decide, by simp, by simp, by simp, ?_, by simp⟩
          · simp [waitBlock, hws, hopen, hdisc, IterOut.trace]
          · intro hcl
            exact absurd hcl (by simp [hopen])
        · obtain ⟨extra, q1, q2, q3, q4, q5, q6⟩ :=
            reconBlock_facts st e (tr0 ++ []) hopen
          have hwb : waitBlock st e false tr0 = reconBlock st e (tr0 ++ []) := by
            simp [waitBlock, hws, hopen, hdisc]
          refine ⟨extra, ?_, q3, q4, q5, ?_, ?_, ?_⟩
          · rw [hwb, q1]
            simp
          · intro hcl
            obtain ⟨st2, tr2, he, hopn⟩ := q6 hcl
            refine ⟨st2, tr2, ?_, hopn⟩
            rw [hwb]
            exact he
          · intro hcl
            exact absurd hcl (by simp [hopen])
          · intro hnr
            exact absurd q2 hnr
      · by_cases hc : (e.cfgErr && !e.disc) = true
        · obtain ⟨extra, q1, q2, q3, q4, q5, q6⟩ :=
            reconBlock_facts st e (tr0 ++ [Ev.probe, Ev.disconnectHost]) hopen
          have hwb : waitBlock st e true tr0
              = reconBlock st e (tr0 ++ [Ev.probe, Ev.disconnectHost]) := by
            simp [waitBlock, hws, hopen, hc]
          refine ⟨[Ev.probe, Ev.disconnectHost] ++ extra, ?_, ?_, ?_, ?_, ?_, ?_, ?_⟩
          · rw [hwb, q1]
            simp
          · exact noWriteAfterClose_append _ _ (by decide) q3
              (fun hm => absurd hm (by decide))
          · simp only [List.mem_append]
            rintro (hm | hm)
            · simp at hm
            · exact q4 hm
          · intro hm
            rcases List.mem_append.mp hm with hm | hm
            · simp at hm
            · exact q5 hm
          · intro hm
            rcases List.mem_append.mp hm with hm | hm
            · simp at hm
            · obtain ⟨st2, tr2, he, hopn⟩ := q6 hm
              refine ⟨st2, tr2, ?_, hopn⟩
              rw [hwb]
              exact he
          · intro hcl
            exact absurd hcl (by simp [hopen])
          · intro hnr
            exact absurd (List.mem_append.mpr (Or.inr q2)) hnr
        · cases hdisc : e.disc
          · have hcf : e.cfgErr = false := by simpa [hdisc] using hc
            refine ⟨[Ev.probe], ?_, by decide, by simp, by simp, by simp, ?_, ?_⟩
            · simp [waitBlock, hws, hopen, hcf, hdisc, IterOut.trace]
            · intro hcl
              exact absurd hcl (by simp [hopen])
            · intro _ x hx
              simp at hx
              simp [hx]
          · obtain ⟨extra, q1, q2, q3, q4, q5, q6⟩ :=
              reconBlock_facts st e (tr0 ++ [Ev.probe]) hopen
            have hwb : waitBlock st e true tr0 = reconBlock st e (tr0 ++ [Ev.probe]) := by
              simp [waitBlock, hws, hopen, hc, hdisc]
            refine ⟨[Ev.probe] ++ extra, ?_, ?_, ?_, ?_, ?_, ?_, ?_⟩
            · rw [hwb, q1]
              simp
            · exact noWriteAfterClose_append _ _ (by decide) q3
                (fun hm => absurd hm (by decide))
            · simp only [List.mem_append]
              rintro (hm | hm)
              · simp at hm
              · exact q4 hm
            · intro hm
              rcases List.mem_append.mp hm with hm | hm
              · simp at hm
              · exact q5 hm
            · intro hm
              rcases List.mem_append.mp hm with hm | hm
              · simp at hm
              · obtain ⟨st2, tr2, he, hopn⟩ := q6 hm
                refine ⟨st2, tr2, ?_, hopn⟩
                rw [hwb]
                exact he
            · intro hcl
              exact absurd hcl (by simp [hopen])
            · intro hnr
              exact absurd (List.mem_append.mpr (Or.inr q2)) hnr
    · refine ⟨[], ?_, by decide, by simp, by simp, by simp, ?_, by simp⟩
      · simp [waitBlock, hb1, hb2, IterOut.trace]
      · intro hcl
        exact ⟨rfl, st, by simp [waitBlock, hb1, hb2], hcl⟩

theorem waitTail_master (st2 : St) (e : IterEnv) (t : Bool) (pre : List Ev)
    (hne : Ev.engineClose ∉ pre)
    (hclp : Ev.closeClient ∈ pre → st2.clientOpen = false ∧ e.peerCloses = true)
    (hwac : noWriteAfterClose pre = true) :
    noWriteAfterClose (waitBlock st2 e t pre).trace = true ∧
    (Ev.closeClient ∈ (waitBlock st2 e t pre).trace →
      sessionOver (waitBlock st2 e t pre) = true) ∧
    Ev.engineClose ∉ (waitBlock st2 e t pre).trace ∧
    (Ev.closeClient ∈ (waitBlock st2 e t pre).trace → e.peerCloses = true) := by
  obtain ⟨extra, w1, w2, w3, w4, w5, w6, w7⟩ := waitBlock_facts st2 e t pre
  refine ⟨?_, ?_, ?_, ?_⟩
  · rw [w1]
    by_cases hclm : Ev.closeClient ∈ pre
    · obtain ⟨hcl2, -⟩ := hclp hclm
      obtain ⟨hex, -⟩ := w6 hcl2
      subst hex
      simpa using hwac
    · exact noWriteAfterClose_append _ _ (noWriteAfterClose_of_no_close pre hclm) w2
        (fun hm => absurd hm hclm)
  · rw [w1]
    intro hm
    rcases List.mem_append.mp hm with hm | hm
    · obtain ⟨hcl2, -⟩ := hclp hm
      obtain ⟨-, st3, hres, hop3⟩ := w6 hcl2
      rw [hres]
      simp [sessionOver, hop3]
    · obtain ⟨st3, tr3, hres, hop3⟩ := w5 hm
      rw [hres]
      simp [sessionOver, hop3]
  · rw [w1]
    simp only [List.mem_append]
    rintro (hm | hm)
    · exact hne hm
    · exact w3 hm
  · rw [w1]
    intro hm
    rcases List.mem_append.mp hm with hm | hm
    · exact (hclp hm).2
    · have h4 := w4 hm
      simp only [Bool.or_eq_true] at h4
      simp only [IterEnv.peerCloses, Bool.or_eq_true]
      tauto

theorem dispatchTail_master (st2 : St) (e : IterEnv) (t : Bool) (pre : List Ev)
    (hne : Ev.engineClose ∉ pre)
    (hclp : Ev.closeClient ∈ pre → st2.clientOpen = false ∧ e.peerCloses = true)
    (hwac : noWriteAfterClose pre = true) :
    noWriteAfterClose (dispatchTail st2 e t pre).trace = true ∧
    (Ev.closeClient ∈ (dispatchTail st2 e t pre).trace →
      sessionOver (dispatchTail st2 e t pre) = true) ∧
    Ev.engineClose ∉ (dispatchTail st2 e t pre).trace ∧
    (Ev.closeClient ∈ (dispatchTail st2 e t pre).trace → e.peerCloses = true) := by
  cases hwm : st2.waitMode with
  | false =>
      cases husb : e.usbReady with
      | false =>
          have hres : dispatchTail st2 e t pre = IterOut.next st2 pre := by
            simp [dispatchTail, hwm, husb]
          rw [hres]
          refine ⟨by simpa [IterOut.trace] using hwac, ?_,
            by simpa [IterOut.trace] using hne, ?_⟩
          · intro hm
            have := (hclp (by simpa [IterOut.trace] using hm)).1
            simp [sessionOver, this]
          · intro hm
            exact (hclp (by simpa [IterOut.trace] using hm)).2
      | true =>
          have hres : dispatchTail st2 e t pre
              = IterOut.next st2 (pre ++ [Ev.handleEvents]) := by
            simp [dispatchTail, hwm, husb]
          rw [hres]
          refine ⟨noWriteAfterClose_append _ _ hwac (by decide) (fun _ => by decide),
            ?_, ?_, ?_⟩
          · intro hm
            have hm2 : Ev.closeClient ∈ pre := by simpa [IterOut.trace] using hm
            simp [sessionOver, (hclp hm2).1]
          · simp only [IterOut.trace, List.mem_append]
            rintro (hm | hm)
            · exact hne hm
            · simp at hm
          · intro hm
            exact (hclp (by simpa [IterOut.trace] using hm)).2
  | true =>
      cases husb : e.usbReady with
      | false =>
          have hres : dispatchTail st2 e t pre = waitBlock st2 e t pre := by
            simp [dispatchTail, hwm, husb]
          rw [hres]
          exact waitTail_master st2 e t pre hne hclp hwac
      | true =>
          have hres : dispatchTail st2 e t pre
              = waitBlock st2 e t (pre ++ [Ev.handleEvents]) := by
            simp [dispatchTail, hwm, husb]
          rw [hres]
          refine waitTail_master st2 e t (pre ++ [Ev.handleEvents]) ?_ ?_ ?_
          · simp only [List.mem_append]
            rintro (hm | hm)
            · exact hne hm
            · simp at hm
          · intro hm
            rcases List.mem_append.mp hm with hm | hm
            · exact hclp hm
            · simp at hm
          · exact noWriteAfterClose_append _ _ hwac (by decide) (fun _ => by decide)

theorem afterSelect_master (st : St) (e : IterEnv) (t : Bool) (tr0 : List Ev)
    (h0 : Ev.closeClient ∉ tr0) (h1 : Ev.engineClose ∉ tr0) :
    noWriteAfterClose (afterSelect st e t tr0).trace = true ∧
    (Ev.closeClient ∈ (afterSelect st e t tr0).trace →
      sessionOver (afterSelect st e t tr0) = true) ∧
    Ev.engineClose ∉ (afterSelect st e t tr0).trace ∧
    (Ev.closeClient ∈ (afterSelect st e t tr0).trace → e.peerCloses = true) := by
  obtain ⟨st1, tr1, b1, hr, hsh1, hb1o⟩ := readPhase_spec st e
  cases b1 with
  | true =>
      have hres : afterSelect st e t tr0 = IterOut.brk st1 (tr0 ++ tr1) := by
        simp [afterSelect, hr]
      rw [hres]
      refine ⟨?_, fun _ => rfl, ?_, ?_⟩
      · rcases hsh1 with ⟨e1, -⟩ | ⟨e1, -⟩ | ⟨e1, -, -⟩ <;> subst e1
        · simpa [IterOut.trace] using noWriteAfterClose_of_no_close tr0 h0
        · exact noWriteAfterClose_append _ _ (noWriteAfterClose_of_no_close tr0 h0)
            (by decide) (fun hm => absurd hm h0)
        · exact noWriteAfterClose_append _ _ (noWriteAfterClose_of_no_close tr0 h0)
            (by decide) (fun hm => absurd hm h0)
      · simp only [IterOut.trace, List.mem_append]
        rintro (hm | hm)
        · exact h1 hm
        · rcases hsh1 with ⟨e1, -⟩ | ⟨e1, -⟩ | ⟨e1, -, -⟩ <;> subst e1 <;> simp at hm
      · intro hm
        simp only [IterOut.trace, List.mem_append] at hm
        rcases hm with hm | hm
        · exact absurd hm h0
        · rcases hsh1 with ⟨e1, -⟩ | ⟨e1, -⟩ | ⟨e1, ecl, -⟩ <;> subst e1
          · simp at hm
          · simp at hm
          · simp [IterEnv.peerCloses, ecl]
  | false =>
      have hopen1 : st1.clientOpen = true := hb1o rfl
      have htr1 : (tr1 = [] ∨ tr1 = [Ev.readGuest]) := by
        rcases hsh1 with ⟨e1, -⟩ | ⟨e1, -⟩ | ⟨e1, -, e3⟩
        · exact Or.inl e1
        · exact Or.inr e1
        · rw [hopen1] at e3; cases e3
      have hcl1 : Ev.closeClient ∉ tr1 := by
        rcases htr1 with h | h <;> subst h <;> simp
      obtain ⟨st2, tr2, b2, hw, hsh2⟩ := writePhase_spec st1 e
      cases b2 with
      | true =>
          have hres : afterSelect st e t tr0 = IterOut.brk st2 (tr0 ++ tr1 ++ tr2) := by
            simp [afterSelect, hr, hw]
          rw [hres]
          have hpre01 : Ev.closeClient ∉ tr0 ++ tr1 := by
            simp only [List.mem_append]
            rintro (hm | hm)
            · exact h0 hm
            · exact hcl1 hm
          refine ⟨?_, fun _ => rfl, ?_, ?_⟩
          · rcases hsh2 with ⟨e1, -⟩ | ⟨e1, -⟩ | ⟨e1, -, -⟩ <;> subst e1
            · simpa [IterOut.trace] using noWriteAfterClose_of_no_close _ hpre01
            · exact noWriteAfterClose_append _ _
                (noWriteAfterClose_of_no_close _ hpre01) (by decide)
                (fun hm => absurd hm hpre01)
            · exact noWriteAfterClose_append _ _
                (noWriteAfterClose_of_no_close _ hpre01) (by decide)
                (fun hm => absurd hm hpre01)
          · simp only [IterOut.trace, List.mem_append]
            rintro ((hm | hm) | hm)
            · exact h1 hm
            · rcases htr1 with h | h <;> subst h <;> simp at hm
            · rcases hsh2 with ⟨e1, -⟩ | ⟨e1, -⟩ | ⟨e1, -, -⟩ <;> subst e1 <;> simp at hm
          · intro hm
            simp only [IterOut.trace, List.mem_append] at hm
            rcases hm with (hm | hm) | hm
            · exact absurd hm h0
            · exact absurd hm hcl1
            · rcases hsh2 with ⟨e1, -⟩ | ⟨e1, -⟩ | ⟨e1, ecl, -⟩ <;> subst e1
              · simp at hm
              · simp at hm
              · simp [IterEnv.peerCloses, ecl]
      | false =>
          have hres : afterSelect st e t tr0 = dispatchTail st2 e t (tr0 ++ tr1 ++ tr2) := by
            simp [afterSelect, hr, hw]
          rw [hres]
          refine dispatchTail_master st2 e t _ ?_ ?_ ?_
          · simp only [List.mem_append]
            rintro ((hm | hm) | hm)
            · exact h1 hm
            · rcases htr1 with h | h <;> subst h <;> simp at hm
            · rcases hsh2 with ⟨e1, -⟩ | ⟨e1, -⟩ | ⟨e1, -, -⟩ <;> subst e1 <;> simp at hm
          · intro hm
            simp only [List.mem_append] at hm
            rcases hm with (hm | hm) | hm
            · exact absurd hm h0
            · exact absurd hm hcl1
            · rcases hsh2 with ⟨e1, -⟩ | ⟨e1, -⟩ | ⟨e1, ecl, eop⟩ <;> subst e1
              · simp at hm
              · simp at hm
              · exact ⟨eop, by simp [IterEnv.peerCloses, ecl]⟩
          · have hpre01 : Ev.closeClient ∉ tr0 ++ tr1 := by
              simp only [List.mem_append]
              rintro (hm | hm)
              · exact h0 hm
              · exact hcl1 hm
            rcases hsh2 with ⟨e1, -⟩ | ⟨e1, -⟩ | ⟨e1, -, -⟩ <;> subst e1
            · simpa using noWriteAfterClose_of_no_close _ hpre01
            · exact noWriteAfterClose_append _ _
                (noWriteAfterClose_of_no_close _ hpre01) (by decide)
                (fun hm => absurd hm hpre01)
            · exact noWriteAfterClose_append _ _
                (noWriteAfterClose_of_no_close _ hpre01) (by decide)
                (fun hm => absurd hm hpre01)

theorem iter_master (st : St) (e : IterEnv) :
    noWriteAfterClose (iterBody st e).trace = true ∧
    (Ev.closeClient ∈ (iterBody st e).trace → sessionOver (iterBody st e) = true) ∧
    Ev.engineClose ∉ (iterBody st e).trace ∧
    (Ev.closeClient ∈ (iterBody st e).trace → e.peerCloses = true) := by
  cases hsel : e.sel with
  | eintr =>
      have hres : iterBody st e = IterOut.next st [] := by simp [iterBody, hsel]
      rw [hres]
      exact ⟨rfl, by simp [IterOut.trace], by simp [IterOut.trace], by simp [IterOut.trace]⟩
  | selErr =>
      have hres : iterBody st e = IterOut.brk st [] := by simp [iterBody, hsel]
      rw [hres]
      exact ⟨rfl, by simp [IterOut.trace], by simp [IterOut.trace], by simp [IterOut.trace]⟩
  | timeout =>
      cases hwm : st.waitMode with
      | false =>
          have hres : iterBody st e = IterOut.next st [Ev.handleEvents] := by
            simp [iterBody, hsel, hwm]
          rw [hres]
          exact ⟨rfl, by simp [IterOut.trace], by simp [IterOut.trace],
            by simp [IterOut.trace]⟩
      | true =>
          have hres : iterBody st e = afterSelect st e true [Ev.handleEvents] := by
            simp [iterBody, hsel, hwm]
          rw [hres]
          exact afterSelect_master st e true [Ev.handleEvents] (by simp) (by simp)
  | ready =>
      have hres : iterBody st e = afterSelect st e false [] := by simp [iterBody, hsel]
      rw [hres]
      exact afterSelect_master st e false [] (by simp) (by simp)

/-! ## Claim theorems about the loop iteration -/

/-- C2: once the transport reports peer-closed within an iteration, the
engine makes no further outbound pump call and never (re-)enters the
reconnection machinery in that iteration (noWriteAfterClose bars
writeGuest, reconEnter and all retry-block calls after closeClient),
and the iteration ends the session: the loop is broken out of, or falls
through to the guard which fails on client_fd == -1, so reconnection is
never reached afterwards even in wait-mode. -/
theorem peer_close_stops_writes (st : St) (e : IterEnv) :
    noWriteAfterClose (iterBody st e).trace = true ∧
    (Ev.closeClient ∈ (iterBody st e).trace → sessionOver (iterBody st e) = true) :=
  ⟨(iter_master st e).1, (iter_master st e).2.1⟩

/-- Witness for C2: a wait-mode iteration in which the read pump
observes peer EOF while outbound data is pending. -/
theorem peer_close_stops_writes_witness :
    noWriteAfterClose (iterBody
      { running := true, clientOpen := true, waitMode := true, waitModeState := 1,
        handle := true, host := { caps := [] } }
      { sel := SelectRes.ready, clientReadable := true, clientWritable := true,
        usbReady := false, readOut := { closes := true, err := false },
        writeOut := { closes := false, err := false }, disc := false, cfgErr := false,
        flushCloses := false, drainCloses := false, retries := [] }).trace = true ∧
    sessionOver (iterBody
      { running := true, clientOpen := true, waitMode := true, waitModeState := 1,
        handle := true, host := { caps := [] } }
      { sel := SelectRes.ready, clientReadable := true, clientWritable := true,
        usbReady := false, readOut := { closes := true, err := false },
        writeOut := { closes := false, err := false }, disc := false, cfgErr := false,
        flushCloses := false, drainCloses := false, retries := [] }) = true :=
  ⟨(peer_close_stops_writes _ _).1, (peer_close_stops_writes
      { running := true, clientOpen := true, waitMode := true, waitModeState := 1,
        handle := true, host := { caps := [] } }
      { sel := SelectRes.ready, clientReadable := true, clientWritable := true,
        usbReady := false, readOut := { closes := true, err := false },
        writeOut := { closes := false, err := false }, disc := false, cfgErr := false,
        flushCloses := false, drainCloses := false, retries := [] }).2 (by decide)⟩

/-- C1 (amended): in wait-mode, the loop body itself never closes the
transport on its own account — the engine-side close happens only in
the epilogue after the loop has exited — and every closeClient observed
during an iteration is caused by the peer (EOF or EPIPE reported to a
callback); however a pump error does break the loop in wait-mode too
(the session then ends just as outside wait-mode). -/
theorem waitmode_close_discipline (st : St) (e : IterEnv) (hwm : st.waitMode = true) :
    Ev.engineClose ∉ (iterBody st e).trace ∧
    (Ev.closeClient ∈ (iterBody st e).trace → e.peerCloses = true) ∧
    (e.sel = SelectRes.ready → e.clientReadable = true → e.readOut.err = true →
      ∃ st2 tr2, iterBody st e = IterOut.brk st2 tr2) := by
  refine ⟨(iter_master st e).2.2.1, (iter_master st e).2.2.2, ?_⟩
  intro hsel hre herr
  refine ⟨{ st with clientOpen := st.clientOpen && !e.readOut.closes },
    Ev.readGuest :: (if st.clientOpen && e.readOut.closes then [Ev.closeClient] else []),
    ?_⟩
  simp [iterBody, hsel, afterSelect, readPhase, hre, herr]

/-- Witness for C1 (amended) at a wait-mode iteration with a failing
read pump. -/
theorem waitmode_close_discipline_witness :
    Ev.engineClose ∉ (iterBody
      { running := true, clientOpen := true, waitMode := true, waitModeState := 1,
        handle := true, host := { caps := [] } }
      { sel := SelectRes.ready, clientReadable := true, clientWritable := false,
        usbReady := false, readOut := { closes := false, err := true },
        writeOut := { closes := false, err := false }, disc := false, cfgErr := false,
        flushCloses := false, drainCloses := false, retries := [] }).trace ∧
    (∃ st2 tr2, iterBody
      { running := true, clientOpen := true, waitMode := true, waitModeState := 1,
        handle := true, host := { caps := [] } }
      { sel := SelectRes.ready, clientReadable := true, clientWritable := false,
        usbReady := false, readOut := { closes := false, err := true },
        writeOut := { closes := false, err := false }, disc := false, cfgErr := false,
        flushCloses := false, drainCloses := false, retries := [] }
      = IterOut.brk st2 tr2) :=
  ⟨(waitmode_close_discipline _ _ rfl).1,
   (waitmode_close_discipline
      { running := true, clientOpen := true, waitMode := true, waitModeState := 1,
        handle := true, host := { caps := [] } }
      { sel := SelectRes.ready, clientReadable := true, clientWritable := false,
        usbReady := false, readOut := { closes := false, err := true },
        writeOut := { closes := false, err := false }, disc := false, cfgErr := false,
        flushCloses := false, drainCloses := false, retries := [] } rfl).2.2 rfl rfl rfl⟩

/-- Counterexample to C1 as stated: in a wait-mode session, a read-pump
error (with no peer close anywhere in the environment) breaks the loop
and the engine itself then closes the transport in the epilogue, so the
session ends on the engine's own account even though the remote peer
never closed the connection. -/
theorem waitmode_pump_error_closes_counterexample :
    ({ running := true, clientOpen := true, waitMode := true, waitModeState := 1,
       handle := true, host := { caps := [] } } : St).waitMode = true ∧
    IterEnv.peerCloses
      { sel := SelectRes.ready, clientReadable := true, clientWritable := false,
        usbReady := false, readOut := { closes := false, err := true },
        writeOut := { closes := false, err := false }, disc := false, cfgErr := false,
        flushCloses := false, drainCloses := false, retries := [] } = false ∧
    Ev.engineClose ∈ (run_main_loop
      { running := true, clientOpen := true, waitMode := true, waitModeState := 1,
        handle := true, host := { caps := [] } }
      [{ sel := SelectRes.ready, clientReadable := true, clientWritable := false,
         usbReady := false, readOut := { closes := false, err := true },
         writeOut := { closes := false, err := false }, disc := false, cfgErr := false,
         flushCloses := false, drainCloses := false, retries := [] }]).trace := by
  decide

/-! ## Pump-ordering within an iteration -/

theorem pumpOrderAux_append (t1 t2 : List Ev) : ∀ ph,
    pumpOrderAux ph (t1 ++ t2)
      = (pumpOrderAux ph t1 && pumpOrderAux (t1.foldl phaseStep ph) t2) := by
  induction t1 with
  | nil => intro ph; simp [pumpOrderAux]
  | cons x r ih =>
      intro ph
      simp [pumpOrderAux, ih, Bool.and_assoc]

theorem pumpOrderAux_probes (extra : List Ev)
    (h : ∀ x ∈ extra, x = Ev.probe ∨ x = Ev.disconnectHost) :
    ∀ ph, pumpOrderAux ph extra = true := by
  induction extra with
  | nil => intro ph; rfl
  | cons x r ih =>
      intro ph
      rcases h x (List.mem_cons_self x r) with hx | hx <;> subst hx <;>
        simpa [pumpOrderAux, phaseStep] using
          ih (fun y hy => h y (List.mem_cons_of_mem _ hy)) _

/-- C3 (amended): in every iteration that does not enter the wait-mode
reconnection block, the in-iteration pipeline order holds: inbound
pumping (read_guest_data) precedes outbound pumping (write_guest_data),
and both precede USB event servicing (libusb_handle_events_timeout);
the only event servicing that can precede the pumps is the timed-wake
housekeeping, and on such a wake the fd sets are empty so no pump runs
in the pipeline at all. -/
theorem dispatch_pump_order (st : St) (e : IterEnv) (hw : e.wfb = true)
    (hnr : Ev.reconEnter ∉ (iterBody st e).trace) :
    pumpOrder (iterBody st e).trace = true := by
  cases hsel : e.sel with
  | eintr =>
      simp [iterBody, hsel, pumpOrder, pumpOrderAux, IterOut.trace]
  | selErr =>
      simp [iterBody, hsel, pumpOrder, pumpOrderAux, IterOut.trace]
  | timeout =>
      have hflags : e.clientReadable = false ∧ e.clientWritable = false ∧
          e.usbReady = false := by
        simpa [IterEnv.wfb, hsel, and_assoc] using hw
      obtain ⟨hre, hwr, husb⟩ := hflags
      cases hwm : st.waitMode with
      | false =>
          simp [iterBody, hsel, hwm, pumpOrder, pumpOrderAux, phaseStep, IterOut.trace]
      | true =>
          have hres : iterBody st e = afterSelect st e true [Ev.handleEvents] := by
            simp [iterBody, hsel, hwm]
          rw [hres] at hnr ⊢
          cases hco : st.clientOpen with
          | false =>
              have hres2 : afterSelect st e true [Ev.handleEvents]
                  = IterOut.brk st ([Ev.handleEvents] ++ []) := by
                simp [afterSelect, readPhase, hre, hco]
              rw [hres2]
              simp [pumpOrder, pumpOrderAux, phaseStep, IterOut.trace]
          | true =>
              have hres2 : afterSelect st e true [Ev.handleEvents]
                  = dispatchTail st e true ([Ev.handleEvents] ++ [] ++ []) := by
                simp [afterSelect, readPhase, writePhase, hre, hwr, hco]
              rw [hres2] at hnr ⊢
              have hres3 : dispatchTail st e true ([Ev.handleEvents] ++ [] ++ [])
                  = waitBlock st e true ([Ev.handleEvents] ++ [] ++ [] ++ []) := by
                simp [dispatchTail, hwm, husb]
              rw [hres3] at hnr ⊢
              obtain ⟨extra, w1, w2, w3, w4, w5, w6, w7⟩ :=
                waitBlock_facts st e true ([Ev.handleEvents] ++ [] ++ [] ++ [])
              rw [w1] at hnr ⊢
              have hex := w7 (fun hm => hnr (List.mem_append.mpr (Or.inr hm)))
              rw [pumpOrder, pumpOrderAux_append]
              have h1 : pumpOrderAux 0 ([Ev.handleEvents] ++ [] ++ [] ++ []) = true := by
                decide
              rw [h1, pumpOrderAux_probes extra hex]
              rfl
  | ready =>
      have hres : iterBody st e = afterSelect st e false [] := by simp [iterBody, hsel]
      rw [hres] at hnr ⊢
      obtain ⟨st1, tr1, b1, hr, hsh1, hb1o⟩ := readPhase_spec st e
      cases b1 with
      | true =>
          have hres2 : afterSelect st e false [] = IterOut.brk st1 ([] ++ tr1) := by
            simp [afterSelect, hr]
          rw [hres2]
          rcases hsh1 with ⟨e1, -⟩ | ⟨e1, -⟩ | ⟨e1, -, -⟩ <;> subst e1 <;>
            simp [pumpOrder, pumpOrderAux, phaseStep, IterOut.trace]
      | false =>
          have hopen1 : st1.clientOpen = true := hb1o rfl
          have htr1 : tr1 = [] ∨ tr1 = [Ev.readGuest] := by
            rcases hsh1 with ⟨e1, -⟩ | ⟨e1, -⟩ | ⟨e1, -, e3⟩
            · exact Or.inl e1
            · exact Or.inr e1
            · rw [hopen1] at e3; cases e3
          obtain ⟨st2, tr2, b2, hw2, hsh2⟩ := writePhase_spec st1 e
          have htr2 : tr2 = [] ∨ tr2 = [Ev.writeGuest] ∨
              tr2 = [Ev.writeGuest, Ev.closeClient] := by
            rcases hsh2 with ⟨e1, -⟩ | ⟨e1, -⟩ | ⟨e1, -, -⟩
            · exact Or.inl e1
            · exact Or.inr (Or.inl e1)
            · exact Or.inr (Or.inr e1)
          cases b2 with
          | true =>
              have hres2 : afterSelect st e false []
                  = IterOut.brk st2 ([] ++ tr1 ++ tr2) := by
                simp [afterSelect, hr, hw2]
              rw [hres2]
              rcases htr1 with h1 | h1 <;> rcases htr2 with h2 | h2 | h2 <;>
                subst h1 <;> subst h2 <;>
                  simp [pumpOrder, pumpOrderAux, phaseStep, IterOut.trace]
          | false =>
              have hres2 : afterSelect st e false []
                  = dispatchTail st2 e false ([] ++ tr1 ++ tr2) := by
                simp [afterSelect, hr, hw2]
              rw [hres2] at hnr ⊢
              cases hwm2 : st2.waitMode with
              | false =>
                  have hres3 : dispatchTail st2 e false ([] ++ tr1 ++ tr2)
                      = IterOut.next st2 ([] ++ tr1 ++ tr2 ++
                          (if e.usbReady then [Ev.handleEvents] else [])) := by
                    simp [dispatchTail, hwm2]
                  rw [hres3]
                  rcases htr1 with h1 | h1 <;> rcases htr2 with h2 | h2 | h2 <;>
                    subst h1 <;> subst h2 <;> cases husb : e.usbReady <;>
                      simp [pumpOrder, pumpOrderAux, phaseStep, IterOut.trace]
              | true =>
                  have hres3 : dispatchTail st2 e false ([] ++ tr1 ++ tr2)
                      = waitBlock st2 e false ([] ++ tr1 ++ tr2 ++
                          (if e.usbReady then [Ev.handleEvents] else [])) := by
                    simp [dispatchTail, hwm2]
                  rw [hres3] at hnr ⊢
                  obtain ⟨extra, w1, w2, w3, w4, w5, w6, w7⟩ :=
                    waitBlock_facts st2 e false ([] ++ tr1 ++ tr2 ++
                      (if e.usbReady then [Ev.handleEvents] else []))
                  rw [w1] at hnr ⊢
                  have hex := w7 (fun hm => hnr (List.mem_append.mpr (Or.inr hm)))
                  rw [pumpOrder, pumpOrderAux_append]
                  rw [pumpOrderAux_probes extra hex]
                  have h1 : pumpOrderAux 0 ([] ++ tr1 ++ tr2 ++
                      (if e.usbReady then [Ev.handleEvents] else [])) = true := by
                    rcases htr1 with h1 | h1 <;> rcases htr2 with h2 | h2 | h2 <;>
                      subst h1 <;> subst h2 <;> cases husb : e.usbReady <;>
                        simp [pumpOrderAux, phaseStep]
                  rw [h1]
                  rfl

/-- Witness for C3 (amended): a well-formed ready-wake iteration with
both pumps and USB servicing, outside the reconnection block. -/
theorem dispatch_pump_order_witness :
    IterEnv.wfb
      { sel := SelectRes.ready, clientReadable := true, clientWritable := true,
        usbReady := true, readOut := { closes := false, err := false },
        writeOut := { closes := false, err := false }, disc := false, cfgErr := false,
        flushCloses := false, drainCloses := false, retries := [] } = true ∧
    pumpOrder (iterBody
      { running := true, clientOpen := true, waitMode := true, waitModeState := 0,
        handle := true, host := { caps := [] } }
      { sel := SelectRes.ready, clientReadable := true, clientWritable := true,
        usbReady := true, readOut := { closes := false, err := false },
        writeOut := { closes := false, err := false }, disc := false, cfgErr := false,
        flushCloses := false, drainCloses := false, retries := [] }).trace = true :=
  ⟨by decide, dispatch_pump_order
    { running := true, clientOpen := true, waitMode := true, waitModeState := 0,
      handle := true, host := { caps := [] } }
    { sel := SelectRes.ready, clientReadable := true, clientWritable := true,
      usbReady := true, readOut := { closes := false, err := false },
      writeOut := { closes := false, err := false }, disc := false, cfgErr := false,
      flushCloses := false, drainCloses := false, retries := [] }
    (by decide) (by decide)⟩

/-- Counterexample to C3 as stated: a wait-mode timed wake that enters
the reconnection block services USB housekeeping first (line 231) and
then pumps outbound (line 284) before inbound (line 286), violating the
claimed order within that iteration even though the oracle is
well-formed. -/
theorem dispatch_pump_order_counterexample :
    IterEnv.wfb
      { sel := SelectRes.timeout, clientReadable := false, clientWritable := false,
        usbReady := false, readOut := { closes := false, err := false },
        writeOut := { closes := false, err := false }, disc := false, cfgErr := true,
        flushCloses := false, drainCloses := true, retries := [] } = true ∧
    pumpOrder (iterBody
      { running := true, clientOpen := true, waitMode := true, waitModeState := 1,
        handle := true, host := { caps := [] } }
      { sel := SelectRes.timeout, clientReadable := false, clientWritable := false,
        usbReady := false, readOut := { closes := false, err := false },
        writeOut := { closes := false, err := false }, disc := false, cfgErr := true,
        flushCloses := false, drainCloses := true, retries := [] }).trace = false := by
  decide

/-- The reconnection block's trace always extends its prefix with the
block-entry marker first, whatever the retry loop then does. -/
theorem reconBlock_trace_take (st : St) (e : IterEnv) (tr1 : List Ev) :
    (reconBlock st e tr1).trace.take (tr1.length + 1) = tr1 ++ [Ev.reconEnter] := by
  simp only [reconBlock, pumpTr]
  split
  all_goals
    simp [IterOut.trace, List.take_append]

/-- C4: on a timed wake (select returned zero ready descriptors) in
wait-mode with the state machine in Connected (wait_mode_state == 1,
transport open), a failing liveness probe while the protocol layer has
not yet reported disconnect leads to the explicit disconnect signal
being issued, and only then is the reconnection block entered: the
iteration trace begins with USB housekeeping, the probe, the disconnect
signal and the block entry, in that order. -/
theorem probe_failure_disconnects_first (st : St) (e : IterEnv)
    (hw : e.wfb = true) (hwm : st.waitMode = true) (hst : st.waitModeState = 1)
    (hop : st.clientOpen = true) (hsel : e.sel = SelectRes.timeout)
    (hcfg : e.cfgErr = true) (hdisc : e.disc = false) :
    (iterBody st e).trace.take 4
      = [Ev.handleEvents, Ev.probe, Ev.disconnectHost, Ev.reconEnter] := by
  have hflags : e.clientReadable = false ∧ e.clientWritable = false ∧
      e.usbReady = false := by
    simpa [IterEnv.wfb, hsel, and_assoc] using hw
  obtain ⟨hre, hwr, husb⟩ := hflags
  have hres : iterBody st e = reconBlock st e
      [Ev.handleEvents, Ev.probe, Ev.disconnectHost] := by
    simp [iterBody, hsel, hwm, afterSelect, readPhase, writePhase, dispatchTail,
      waitBlock, hre, hwr, husb, hop, hst, hcfg, hdisc]
  rw [hres]
  simpa using reconBlock_trace_take st e [Ev.handleEvents, Ev.probe, Ev.disconnectHost]

/-- Witness for C4 at a concrete timed wake with a failing probe. -/
theorem probe_failure_disconnects_first_witness :
    (iterBody
      { running := true, clientOpen := true, waitMode := true, waitModeState := 1,
        handle := true, host := { caps := [] } }
      { sel := SelectRes.timeout, clientReadable := false, clientWritable := false,
        usbReady := false, readOut := { closes := false, err := false },
        writeOut := { closes := false, err := false }, disc := false, cfgErr := true,
        flushCloses := false, drainCloses := false,
        retries := [{ signal := false, initFails := false, deviceFound := true,
                      flushCloses := false }] }).trace.take 4
      = [Ev.handleEvents, Ev.probe, Ev.disconnectHost, Ev.reconEnter] :=
  probe_failure_disconnects_first
    { running := true, clientOpen := true, waitMode := true, waitModeState := 1,
      handle := true, host := { caps := [] } }
    { sel := SelectRes.timeout, clientReadable := false, clientWritable := false,
      usbReady := false, readOut := { closes := false, err := false },
      writeOut := { closes := false, err := false }, disc := false, cfgErr := true,
      flushCloses := false, drainCloses := false,
      retries := [{ signal := false, initFails := false, deviceFound := true,
                    flushCloses := false }] }
    (by decide) rfl rfl rfl rfl rfl rfl

end Usbredirserver
